import Mathlib

/-!
Verification of the node-janitor scan-filter-clean pipeline.

This file gives a shallow embedding, in Lean 4, of the core of the
node-janitor tool: the string parsers (`parseDuration`, `parseDurationRange`,
`parseSize` from `src/utils/formatter.ts`), the pure record filters
(`filterByAge`, `filterBySize`, `filterWithLockfile` from `src/core/scanner.ts`),
the deletion engine (`cleanNodeModules` from `src/core/cleaner.ts`), the deep
cleaner (`deepClean` from `src/core/deep-cleaner.ts`), the package counter
(`countPackages` from `src/utils/fs-utils.ts`), and the two discovery
strategies (the manual JS tree walk and the native `find`-based fast scan).

Impure aspects are embedded explicitly:
  * the filesystem is a finite tree (`FSEntry`), and mutation is explicit
    state passing;
  * fallible calls return `Except`/`Option`;
  * external outcomes (per-path deletion success, manifest-write success,
    environment variables, clock) are supplied by an environment record;
  * JavaScript numbers only ever hold byte counts, day counts and sizes
    here, so they are embedded as `Nat`/`Int` (no floating point is needed:
    `parseSize`'s `Math.floor(value * multiplier)` is computed exactly over
    the decimal digits).
-/

namespace NodeJanitor

/-! ## Data model (src/types/index.ts) -/

/-- `GitStatus` from `src/types/index.ts`. -/
structure GitStatus where
  isGitRepo : Bool
  isDirty : Bool
  branch : Option String
deriving Repr, DecidableEq

/-- `NodeModulesInfo` from `src/types/index.ts`: one discovered
`node_modules` directory.  `lastModified` is an epoch timestamp. -/
structure NodeModulesInfo where
  path : String
  projectPath : String
  size : Nat
  lastModified : Int
  packageCount : Nat
  hasPackageLock : Bool
  hasYarnLock : Bool
  hasPnpmLock : Bool
  ageDays : Int
  gitStatus : Option GitStatus
deriving Repr, DecidableEq

/-! ## Parsers (src/utils/formatter.ts) -/

/-- Decimal value of a digit list, as JavaScript `parseInt(s, 10)` computes
it on a string of ASCII digits. -/
def digitsToNat (ds : List Char) : Nat :=
  ds.foldl (fun acc c => acc * 10 + (c.toNat - '0'.toNat)) 0

/-- The duration-unit multiplier table of `parseDuration`
(`src/utils/formatter.ts`): `d`=1, `w`=7, `m`=30, `y`=365. -/
def durationMultiplier (u : Char) : Nat :=
  if u = 'd' then 1 else if u = 'w' then 7 else if u = 'm' then 30 else 365

/-- `parseDuration` from `src/utils/formatter.ts`.  The source matches the
string against `/^(\d+)(d|w|m|y)$/i` (note the `i` flag: the unit letter is
case-insensitive, and is lowercased before the multiplier lookup), then
returns `parseInt(match[1], 10) * multiplier[unit]`.  A failed match throws
an invalid-format error, embedded as `Except.error`. -/
def parseDuration (s : String) : Except String Nat :=
  match s.data.reverse with
  | [] => .error ("Invalid duration format: " ++ s)
  | u :: revDigits =>
    let ds := revDigits.reverse
    if ds ≠ [] ∧ ds.all Char.isDigit ∧ u.toLower ∈ ['d', 'w', 'm', 'y'] then
      .ok (digitsToNat ds * durationMultiplier u.toLower)
    else .error ("Invalid duration format: " ++ s)

/-- `parseDurationRange` from `src/utils/formatter.ts`: split on every `-`
(JavaScript `split('-')`), demand exactly two parts, parse each. -/
def parseDurationRange (s : String) : Except String (Nat × Nat) :=
  match s.splitOn "-" with
  | [a, b] => do
    let mn ← parseDuration a
    let mx ← parseDuration b
    .ok (mn, mx)
  | _ => .error ("Invalid range format: " ++ s)

/-- The size-unit multiplier table of `parseSize` (`src/utils/formatter.ts`):
base 1024.  The unit letters have already been uppercased. -/
def sizeMultiplier (u : List Char) : Nat :=
  if u = ['B'] then 1 else if u = ['K', 'B'] then 1024
  else if u = ['M', 'B'] then 1024 ^ 2 else if u = ['G', 'B'] then 1024 ^ 3
  else 1024 ^ 4

/-- `parseSize` from `src/utils/formatter.ts`.  The source matches
`/^(\d+(?:\.\d+)?)\s*(B|KB|MB|GB|TB)?$/i` and returns
`Math.floor(parseFloat(match[1]) * multiplier[unit])`, defaulting the unit
to `B`.  The numeric value `I.F` times the power-of-1024 multiplier is
computed here exactly over the decimal digits:
`floor((I + F/10^k) * M) = (digits(I ++ F) * M) / 10^k` in `Nat` division.
A bare `.` not followed by a digit can never complete a match of the
anchored pattern, so it falls through to the unit check and fails there. -/
def parseSize (s : String) : Except String Nat :=
  let cs := s.data
  let intPart := cs.takeWhile Char.isDigit
  let rest := cs.dropWhile Char.isDigit
  if intPart = [] then .error ("Invalid size format: " ++ s) else
  let (fracPart, rest2) :=
    match rest with
    | '.' :: r => if (r.takeWhile Char.isDigit) = [] then (([] : List Char), rest)
                  else (r.takeWhile Char.isDigit, r.dropWhile Char.isDigit)
    | _ => ([], rest)
  let unitUp := (rest2.dropWhile Char.isWhitespace).map Char.toUpper
  if unitUp = [] ∨ unitUp ∈ [['B'], ['K', 'B'], ['M', 'B'], ['G', 'B'], ['T', 'B']] then
    let unit := if unitUp = [] then ['B'] else unitUp
    .ok ((digitsToNat (intPart ++ fracPart) * sizeMultiplier unit) / 10 ^ fracPart.length)
  else .error ("Invalid size format: " ++ s)

/-! ## Filter stage (src/core/scanner.ts) -/

/-- `filterByAge` from `src/core/scanner.ts`: keep records whose `ageDays`
is `≥ minAgeDays` (when given) and `≤ maxAgeDays` (when given). -/
def filterByAge (folders : List NodeModulesInfo)
    (minAgeDays maxAgeDays : Option Int) : List NodeModulesInfo :=
  folders.filter fun folder =>
    (match minAgeDays with
     | some m => !decide (folder.ageDays < m)
     | none => true) &&
    (match maxAgeDays with
     | some m => !decide (folder.ageDays > m)
     | none => true)

/-- `filterBySize` from `src/core/scanner.ts`: keep records whose `size`
is `≥ minSize` (when given) and `≤ maxSize` (when given). -/
def filterBySize (folders : List NodeModulesInfo)
    (minSize maxSize : Option Nat) : List NodeModulesInfo :=
  folders.filter fun folder =>
    (match minSize with
     | some m => !decide (folder.size < m)
     | none => true) &&
    (match maxSize with
     | some m => !decide (folder.size > m)
     | none => true)

/-- `filterWithLockfile` from `src/core/scanner.ts`: keep records with at
least one of the three lockfile flags set. -/
def filterWithLockfile (folders : List NodeModulesInfo) : List NodeModulesInfo :=
  folders.filter fun folder =>
    folder.hasPackageLock || folder.hasYarnLock || folder.hasPnpmLock

/-- Spec-side description of the duration grammar `<integer><unit>`, read
with a case-insensitive unit letter: a nonempty digit string followed by
one of `d`, `w`, `m`, `y` in either case. -/
def durationShapeSpec (s : String) : Bool :=
  match s.data.getLast? with
  | none => false
  | some u =>
    !s.data.dropLast.isEmpty && s.data.dropLast.all Char.isDigit &&
      (u.toLower == 'd' || u.toLower == 'w' || u.toLower == 'm' || u.toLower == 'y')

/-! ## Deletion engine (src/core/cleaner.ts, src/utils/fs-utils.ts)

`cleanNodeModules` is impure: it reads environment variables, writes the
backup manifest, and deletes directories.  The embedding passes an
explicit environment (`CleanEnv`) supplying the outcome of each external
operation, and returns, besides the `Except` outcome, the trace of
destructive filesystem effects actually performed (manifest writes and
directory deletions), in order.  `p-limit` bounded concurrency is embedded
as the sequential (`parallelism = 1`) linearization: the accumulator
updates of the source are order-insensitive counts, sums and appends. -/

/-- `CleanOptions` from `src/types/index.ts`. -/
structure CleanOptions where
  olderThan : Option String
  between : Option String
  minSize : Option String
  maxSize : Option String
  dryRun : Bool
  fast : Bool
  parallel : Option Nat
  backup : Bool
  lockCheck : Bool
  skipDirtyGit : Bool
deriving Repr

/-- `CleanResult` from `src/types/index.ts`; `errors` entries are
`(path, message)` pairs. -/
structure CleanResult where
  deletedCount : Nat
  freedBytes : Nat
  deletedPaths : List String
  errors : List (String × String)
  backupPath : Option String
deriving Repr, DecidableEq

/-- `BackupFolderInfo` from `src/types/index.ts`. -/
structure BackupFolderInfo where
  path : String
  size : Nat
  packageJsonPath : String
  lockfileType : Option String
deriving Repr, DecidableEq

/-- `BackupData` from `src/types/index.ts`. -/
structure BackupData where
  timestamp : String
  version : String
  folders : List BackupFolderInfo
  totalSize : Nat
  totalFolders : Nat
deriving Repr, DecidableEq

/-- A destructive filesystem effect performed by the deletion engine. -/
inductive Effect where
  | writeManifest (path : String)
  | deleteDir (path : String)
deriving Repr, DecidableEq

/-- The external world as seen by one `cleanNodeModules` call: environment
variables, the clock, and the outcome of each fallible external operation
(`fs.ensureDir`, `fs.writeJson`, and per-path deletion — `deleteResult
fast path = none` means the delete succeeded, `some msg` that it threw
an error whose message is `msg`). -/
structure CleanEnv where
  envHOME : Option String
  envUSERPROFILE : Option String
  timestamp : String
  nowISO : String
  ensureDirResult : Except String Unit
  writeJsonResult : Except String Unit
  deleteResult : Bool → String → Option String

/-- `getHomeDir` from `src/utils/fs-utils.ts`:
`process.env.HOME || process.env.USERPROFILE || '~'`. -/
def getHomeDir (env : CleanEnv) : String :=
  env.envHOME.getD (env.envUSERPROFILE.getD "~")

/-- `getDataDir` from `src/utils/fs-utils.ts`. -/
def getDataDir (env : CleanEnv) : String :=
  getHomeDir env ++ "/.node-janitor"

/-- `getBackupsDir` from `src/utils/fs-utils.ts`. -/
def getBackupsDir (env : CleanEnv) : String :=
  getDataDir env ++ "/backups"

/-- `createBackup` from `src/core/cleaner.ts`: ensure the backups
directory, build the manifest, write it as JSON.  Returns the manifest
file path (what the source returns) together with the manifest contents. -/
def createBackup (folders : List NodeModulesInfo) (env : CleanEnv) :
    Except String (String × BackupData) :=
  match env.ensureDirResult with
  | .error e => .error e
  | .ok _ =>
    let filepath := getBackupsDir env ++ "/backup_" ++ env.timestamp ++ ".json"
    let backupData : BackupData :=
      { timestamp := env.nowISO
        version := "1.0.0"
        folders := folders.map fun f =>
          { path := f.path
            size := f.size
            packageJsonPath := f.projectPath ++ "/package.json"
            lockfileType :=
              if f.hasPackageLock then some "npm"
              else if f.hasYarnLock then some "yarn"
              else if f.hasPnpmLock then some "pnpm" else none }
        totalSize := folders.foldl (fun sum f => sum + f.size) 0
        totalFolders := folders.length }
    match env.writeJsonResult with
    | .error e => .error e
    | .ok _ => .ok (filepath, backupData)

/-- The filter cascade at the top of `cleanNodeModules`
(`src/core/cleaner.ts`): `olderThan`, then `between`, then `minSize`, then
`maxSize`, then `lockCheck`; a parse failure of any supplied filter string
throws. -/
def applyFilters (folders : List NodeModulesInfo) (options : CleanOptions) :
    Except String (List NodeModulesInfo) := do
  let f1 ← match options.olderThan with
    | none => pure folders
    | some s => do
        let days ← parseDuration s
        pure (filterByAge folders (some (days : Int)) none)
  let f2 ← match options.between with
    | none => pure f1
    | some s => do
        let range ← parseDurationRange s
        pure (filterByAge f1 (some (range.1 : Int)) (some (range.2 : Int)))
  let f3 ← match options.minSize with
    | none => pure f2
    | some s => do
        let minBytes ← parseSize s
        pure (filterBySize f2 (some minBytes) none)
  let f4 ← match options.maxSize with
    | none => pure f3
    | some s => do
        let maxBytes ← parseSize s
        pure (filterBySize f3 none (some maxBytes))
  if options.lockCheck then pure (filterWithLockfile f4) else pure f4

/-- The deletion loop of `cleanNodeModules`: for each filtered record,
attempt the delete (`deleteFolderFast` when `fast`, else `deleteFolder`,
both embedded in `CleanEnv.deleteResult`); on success bump
`deletedCount`/`freedBytes` and append to `deletedPaths`, on failure
append `{path, message}` to `errors`. -/
def runDeletions (env : CleanEnv) (options : CleanOptions) :
    List NodeModulesInfo → CleanResult → CleanResult × List Effect
  | [], acc => (acc, [])
  | folder :: rest, acc =>
    match env.deleteResult options.fast folder.path with
    | none =>
      let acc' : CleanResult :=
        { acc with deletedCount := acc.deletedCount + 1
                   freedBytes := acc.freedBytes + folder.size
                   deletedPaths := acc.deletedPaths ++ [folder.path] }
      let next := runDeletions env options rest acc'
      (next.1, .deleteDir folder.path :: next.2)
    | some msg =>
      runDeletions env options rest
        { acc with errors := acc.errors ++ [(folder.path, msg)] }

/-- `cleanNodeModules` from `src/core/cleaner.ts`: filter, then in dry-run
mode return the preview immediately; otherwise optionally write the backup
manifest (throwing on failure) and run the deletion loop. -/
def cleanNodeModules (folders : List NodeModulesInfo) (options : CleanOptions)
    (env : CleanEnv) : Except String CleanResult × List Effect :=
  match applyFilters folders options with
  | .error e => (.error e, [])
  | .ok filteredFolders =>
    if options.dryRun then
      (.ok { deletedCount := filteredFolders.length
             freedBytes := filteredFolders.foldl (fun sum f => sum + f.size) 0
             deletedPaths := filteredFolders.map (fun f => f.path)
             errors := []
             backupPath := none }, [])
    else
      match (if options.backup then (createBackup filteredFolders env).map (fun p => some p.1)
             else .ok none) with
      | .error e => (.error e, [])
      | .ok bp =>
        let pre : List Effect :=
          match bp with
          | some p => [.writeManifest p]
          | none => []
        let next := runDeletions env options filteredFolders
          { deletedCount := 0, freedBytes := 0, deletedPaths := []
            errors := [], backupPath := bp }
        (.ok next.1, pre ++ next.2)

/-! ## Filesystem model

A filesystem subtree: a file with a byte size, or a directory with an
ordered list of named children (`fs.readdir` order).  Paths are segment
lists relative to the modelled root.  Filesystem mutation is explicit
state passing. -/

/-- A filesystem entry. -/
inductive FSEntry where
  | file (size : Nat)
  | dir (children : List (String × FSEntry))
deriving Repr

/-- JavaScript `String.prototype.startsWith`, over the character lists (the
strings involved are ASCII directory-entry names). -/
def jsStartsWith (s pat : String) : Bool :=
  pat.data.isPrefixOf s.data

/-- JavaScript `String.prototype.endsWith`. -/
def jsEndsWith (s pat : String) : Bool :=
  pat.data.isSuffixOf s.data

/-- Recursive byte size of an entry: the sum of the sizes of all files in
the subtree.  This is `getFolderSize` from `src/utils/fs-utils.ts` and the
inner `calculateSize` of `safeDeleteDir` (`src/core/deep-cleaner.ts`):
directories contribute only their contents. -/
def entrySize : FSEntry → Nat
  | .file s => s
  | .dir cs => childrenSize cs
where
  /-- Sum of the recursive sizes of a child list. -/
  childrenSize : List (String × FSEntry) → Nat
  | [] => 0
  | (_, e) :: rest => entrySize e + childrenSize rest

/-- `fs.stat`/`fs.readdir` resolution: follow a relative path down the
tree. -/
def lookupFS : FSEntry → List String → Option FSEntry
  | e, [] => some e
  | .file _, _ :: _ => none
  | .dir cs, n :: rest =>
    match cs.find? (fun c => c.1 == n) with
    | none => none
    | some c => lookupFS c.2 rest

/-- `fs.remove`: delete the entry at a relative path (no-op when the path
does not exist). -/
def removeFS : FSEntry → List String → FSEntry
  | e, [] => e
  | .file s, _ :: _ => .file s
  | .dir cs, [n] => .dir (cs.filter (fun c => !(c.1 == n)))
  | .dir cs, n :: rest =>
    .dir (cs.map (fun c => if c.1 == n then (c.1, removeFS c.2 rest) else c))

/-! ## Deep cleaner (src/core/deep-cleaner.ts) -/

/-- `DeepCleanOptions` from `src/types/index.ts`. -/
structure DeepCleanOptions where
  dryRun : Bool
  verbose : Bool
deriving Repr

/-- `DeepCleanResult` from `src/types/index.ts`; `deletedFiles` is present
exactly when `verbose` was requested.  Paths are root-relative segment
lists. -/
structure DeepCleanResult where
  deletedFileCount : Nat
  processedFolders : Nat
  freedBytes : Nat
  deletedFiles : Option (List (List String))
deriving Repr, DecidableEq

/-- `DEEP_CLEAN_PATTERNS.files` from `src/core/deep-cleaner.ts`. -/
def DEEP_CLEAN_FILES : List String :=
  ["README.md", "README.markdown", "README.txt", "readme.md", "readme.txt",
   "CHANGELOG.md", "CHANGELOG.txt", "CHANGES.md", "HISTORY.md", "LICENSE",
   "LICENSE.md", "LICENSE.txt", "license", "LICENCE", "LICENCE.md",
   "COPYING", "AUTHORS", "CONTRIBUTORS", ".npmignore", ".gitignore",
   ".eslintrc", ".eslintrc.js", ".eslintrc.json", ".prettierrc",
   ".prettierrc.js", ".prettierrc.json", ".babelrc", ".editorconfig",
   "tsconfig.json", "tslint.json", ".travis.yml", "appveyor.yml",
   "Makefile", "Gulpfile.js", "Gruntfile.js", "rollup.config.js",
   "webpack.config.js"]

/-- `DEEP_CLEAN_PATTERNS.extensions` from `src/core/deep-cleaner.ts`. -/
def DEEP_CLEAN_EXTENSIONS : List String :=
  [".md", ".markdown", ".map", ".ts.map", ".js.map", ".min.map"]

/-- `DEEP_CLEAN_PATTERNS.directories` from `src/core/deep-cleaner.ts`. -/
def DEEP_CLEAN_DIRECTORIES : List String :=
  ["test", "tests", "__tests__", "spec", "specs", "example", "examples",
   "doc", "docs", "documentation", "coverage", ".nyc_output", ".github",
   ".vscode", ".idea", "benchmark", "benchmarks", "fixtures",
   "__fixtures__", "__mocks__"]

/-- `getPackageDirectories` from `src/core/deep-cleaner.ts`: list the
non-hidden directory children of the `node_modules` root; an entry whose
name starts with `@` is expanded one level, pushing every child (the
source applies no hidden filter and no directory check at the inner
level).  The `packages` array lives outside the `try`, so entries pushed
before an I/O error survive; in this total model no error occurs. -/
def getPackageDirectories (root : FSEntry) : List (List String) :=
  match root with
  | .file _ => []
  | .dir cs => go cs
where
  /-- Walk the `readdir` listing in order. -/
  go : List (String × FSEntry) → List (List String)
  | [] => []
  | (name, e) :: rest =>
    if jsStartsWith name "." then go rest
    else
      match e with
      | .file _ => go rest
      | .dir sub =>
        if jsStartsWith name "@" then
          (sub.map (fun c => [name, c.1])) ++ go rest
        else [name] :: go rest

/-- `safeDelete` from `src/core/deep-cleaner.ts`: stat the path; a missing
path or a non-file yields 0 and no change; otherwise return the file size,
removing the file only when not in dry-run mode. -/
def safeDelete (fs : FSEntry) (p : List String) (dryRun : Bool) :
    Nat × FSEntry :=
  match lookupFS fs p with
  | some (.file sz) => if dryRun then (sz, fs) else (sz, removeFS fs p)
  | some (.dir _) => (0, fs)
  | none => (0, fs)

/-- `safeDeleteDir` from `src/core/deep-cleaner.ts`: stat the path; a
missing path or a non-directory yields 0 and no change; otherwise compute
the recursive size, removing the directory only when not in dry-run
mode. -/
def safeDeleteDir (fs : FSEntry) (p : List String) (dryRun : Bool) :
    Nat × FSEntry :=
  match lookupFS fs p with
  | some (.dir cs) =>
    if dryRun then (entrySize (.dir cs), fs)
    else (entrySize (.dir cs), removeFS fs p)
  | some (.file _) => (0, fs)
  | none => (0, fs)

/-- The per-deletion accounting of `deepClean`: only a freed size
strictly greater than 0 is recorded — bump the counters and, in verbose
mode, append the path. -/
def deepCleanRecord (freed : Nat) (p : List String) (r : DeepCleanResult) :
    DeepCleanResult :=
  if freed > 0 then
    { r with deletedFileCount := r.deletedFileCount + 1
             freedBytes := r.freedBytes + freed
             deletedFiles := r.deletedFiles.map (fun l => l ++ [p]) }
  else r

/-- The exact-filename pass of `deepClean`: try each denylisted filename
inside the package directory. -/
def cleanNamedFiles (options : DeepCleanOptions) (pkg : List String) :
    List String → DeepCleanResult × FSEntry → DeepCleanResult × FSEntry
  | [], st => st
  | filename :: more, (r, fs) =>
    let fp := pkg ++ [filename]
    let freed := safeDelete fs fp options.dryRun
    cleanNamedFiles options pkg more (deepCleanRecord freed.1 fp r, freed.2)

/-- The inner extension loop of `cleanByExtension`: the `break` after the
first matching extension makes it a first-match test. -/
def matchesSomeExtension (item : String) : List String → Bool
  | [] => false
  | ext :: more =>
    if jsEndsWith item ext then true else matchesSomeExtension item more

/-- The item loop of `cleanByExtension` (`src/core/deep-cleaner.ts`),
over the `readdir` snapshot taken on entry. -/
def cleanExtensionItems (options : DeepCleanOptions) (pkg : List String) :
    List String → DeepCleanResult × FSEntry → DeepCleanResult × FSEntry
  | [], st => st
  | item :: more, (r, fs) =>
    if matchesSomeExtension item DEEP_CLEAN_EXTENSIONS then
      let fp := pkg ++ [item]
      let freed := safeDelete fs fp options.dryRun
      cleanExtensionItems options pkg more (deepCleanRecord freed.1 fp r, freed.2)
    else cleanExtensionItems options pkg more (r, fs)

/-- `cleanByExtension` from `src/core/deep-cleaner.ts`: `readdir` the
package directory once (errors ignored), then delete every item whose
name ends with a denylisted extension. -/
def cleanByExtension (options : DeepCleanOptions) (pkg : List String)
    (st : DeepCleanResult × FSEntry) : DeepCleanResult × FSEntry :=
  match lookupFS st.2 pkg with
  | some (.dir cs) => cleanExtensionItems options pkg (cs.map (fun c => c.1)) st
  | _ => st

/-- The directory pass of `deepClean`: try each denylisted directory name
inside the package directory. -/
def cleanDirectories (options : DeepCleanOptions) (pkg : List String) :
    List String → DeepCleanResult × FSEntry → DeepCleanResult × FSEntry
  | [], st => st
  | dirName :: more, (r, fs) =>
    let dp := pkg ++ [dirName]
    let freed := safeDeleteDir fs dp options.dryRun
    cleanDirectories options pkg more (deepCleanRecord freed.1 dp r, freed.2)

/-- One iteration of `deepClean`'s package loop: the filename pass, then
the extension pass, then the directory pass. -/
def deepCleanPackage (options : DeepCleanOptions) (pkg : List String)
    (st : DeepCleanResult × FSEntry) : DeepCleanResult × FSEntry :=
  cleanDirectories options pkg DEEP_CLEAN_DIRECTORIES
    (cleanByExtension options pkg
      (cleanNamedFiles options pkg DEEP_CLEAN_FILES st))

/-- The package loop of `deepClean`. -/
def deepCleanGo (options : DeepCleanOptions) :
    List (List String) → DeepCleanResult × FSEntry → DeepCleanResult × FSEntry
  | [], st => st
  | pkg :: more, st => deepCleanGo options more (deepCleanPackage options pkg st)

/-- `deepClean` from `src/core/deep-cleaner.ts`, over the `node_modules`
root entry: enumerate package directories, then run the three cleaning
passes per package.  Returns the outcome and the resulting filesystem. -/
def deepClean (fs : FSEntry) (options : DeepCleanOptions) :
    DeepCleanResult × FSEntry :=
  let packages := getPackageDirectories fs
  deepCleanGo options packages
    ({ deletedFileCount := 0
       processedFolders := packages.length
       freedBytes := 0
       deletedFiles := if options.verbose then some [] else none }, fs)

/-! ## Package counting (countPackages, src/utils/fs-utils.ts) -/

/-- `countPackages` from `src/utils/fs-utils.ts`: count non-hidden
`readdir` entries of the `node_modules` directory — with no directory
check — expanding an `@`-prefixed entry into its non-hidden children
count.  The whole body sits in a `try` whose `catch` returns 0, so a
failing inner `readdir` (an `@`-prefixed entry that is a plain file)
discards the whole count. -/
def countPackages (root : FSEntry) : Nat :=
  match root with
  | .file _ => 0
  | .dir cs => (go cs).getD 0
where
  /-- The item loop; `none` models a thrown `readdir` error. -/
  go : List (String × FSEntry) → Option Nat
  | [] => some 0
  | (name, e) :: rest =>
    if jsStartsWith name "." then go rest
    else if jsStartsWith name "@" then
      match e with
      | .file _ => none
      | .dir sub =>
        (go rest).map
          (fun n => n + (sub.filter (fun c => !(jsStartsWith c.1 "."))).length)
    else (go rest).map (fun n => n + 1)

/-- Whether an entry is a directory. -/
def isDirEntry : FSEntry → Bool
  | .dir _ => true
  | .file _ => false

/-- Spec-side package count: the number of immediate child package
*directories*, with each `@scope` directory expanded one level into its
non-hidden directory children, hidden entries excluded at both levels and
non-directory entries contributing nothing. -/
def specPackageCount : FSEntry → Nat
  | .file _ => 0
  | .dir cs => go cs
where
  /-- Per-entry spec contribution. -/
  go : List (String × FSEntry) → Nat
  | [] => 0
  | (name, e) :: rest =>
    (if jsStartsWith name "." then 0
     else
       match e with
       | .file _ => 0
       | .dir sub =>
         if jsStartsWith name "@" then
           (sub.filter (fun d => !(jsStartsWith d.1 ".") && isDirEntry d.2)).length
         else 1) + go rest

/-- Hypothesis under which `countPackages` agrees with the spec count:
every non-hidden top-level entry is a directory, and every non-hidden
child of a non-hidden `@`-entry is a directory. -/
def nonHiddenEntriesAreDirs (cs : List (String × FSEntry)) : Bool :=
  cs.all fun c =>
    if jsStartsWith c.1 "." then true
    else
      match c.2 with
      | .file _ => false
      | .dir sub =>
        !(jsStartsWith c.1 "@") ||
          sub.all (fun d => jsStartsWith d.1 "." || isDirEntry d.2)

/-! ## Discovery engine (src/core/scanner.ts, src/core/fast-scanner.ts)

Paths are absolute-segment lists (the resolved root's segments followed by
directory names); `renderPath` produces the `/`-joined string that
`path.join` builds and that the pattern checks run on.  The JS regular
expression engine, reached only through
`new RegExp(pattern.replace(/\*/g, '.*')).test(s)` for glob patterns, is
embedded as an oracle `regexTest pattern s`, identical for both discovery
strategies because both construct the same regex.  The per-record size
used for the final sort (`getFolderSizeFast`) is likewise an oracle
`folderSize`, identical for both strategies.  Discovery returns the
record `path`s; the other metadata fields do not influence which paths
are returned or their order. -/

/-- `SKIP_FOLDERS` from `src/core/scanner.ts`. -/
def SKIP_FOLDERS : List String :=
  [".git", ".svn", ".hg", ".cache", ".npm", ".yarn", ".pnpm-store",
   "Library", "Applications", ".Trash"]

/-- The `skipFolders` list inside `scanNodeModulesFast`
(`src/core/fast-scanner.ts`). -/
def FAST_SKIP_FOLDERS : List String :=
  ["Library", "Applications", ".Trash", ".npm", ".yarn", ".pnpm-store"]

/-- `ScanOptions` from `src/types/index.ts`; `path` is already resolved,
as segments. -/
structure ScanOptions where
  path : List String
  depth : Option Nat
  quick : Bool
  excludePatterns : Option (List String)
  includePatterns : Option (List String)

/-- The `/`-joined string of a segment path, as `path.join` produces on a
POSIX filesystem (an absolute path is a list whose head is `""`). -/
def renderPath : List String → String
  | [] => ""
  | [s] => s
  | s :: rest => s ++ "/" ++ renderPath rest

/-- JavaScript `String.prototype.includes`. -/
def substrHit (pattern s : String) : Bool :=
  decide (pattern.data <:+: s.data)

/-- One pattern test, shared verbatim by the walker's exclude check, the
fast scanner's exclude check and both include checks: glob patterns (`*`
present) go through the JS regex engine after `*` → `.*` translation,
other patterns are substring tests. -/
def patternMatches (regexTest : String → String → Bool)
    (pattern s : String) : Bool :=
  if pattern.data.contains '*' then regexTest pattern s
  else substrHit pattern s

/-- `options.excludePatterns?.some(...)` as both scanners evaluate it. -/
def excludeHit (regexTest : String → String → Bool)
    (excludePatterns : Option (List String)) (s : String) : Bool :=
  match excludePatterns with
  | none => false
  | some pats => pats.any fun pattern => patternMatches regexTest pattern s

/-- The manual tree walk `scan` of `scanNodeModulesJS`
(`src/core/fast-scanner.ts`'s fallback, identical to the walk in
`src/core/scanner.ts`): guard the depth, read the directory, and for each
entry skip hidden/system names, skip excluded paths, skip non-directories,
record `node_modules` matches without descending, and recurse otherwise.
Returns the recorded `node_modules` paths in traversal order. -/
def scanJSWalk (regexTest : String → String → Bool) (opts : ScanOptions) :
    FSEntry → List String → Nat → List (List String)
  | e, dirSegs, depth =>
    if opts.depth.any (fun d => decide (depth > d)) then []
    else
      match e with
      | .file _ => []
      | .dir cs => items cs dirSegs depth
where
  /-- The `for (const item of items)` loop. -/
  items : List (String × FSEntry) → List String → Nat → List (List String)
  | [], _, _ => []
  | (name, entry) :: rest, dirSegs, depth =>
    (if jsStartsWith name "." || SKIP_FOLDERS.contains name then []
     else if excludeHit regexTest opts.excludePatterns
         (renderPath (dirSegs ++ [name])) then []
     else if !(isDirEntry entry) then []
     else if name == "node_modules" then [dirSegs ++ [name]]
     else scanJSWalk regexTest opts entry (dirSegs ++ [name]) (depth + 1)) ++
    items rest dirSegs depth

/-- The traversal performed by
`find "$startPath" -maxdepth (d+1) -type d -name node_modules -prune`
below the start path.  Modelled from the spec (§4.3) and the documented
semantics of `find(1)`, which is external to the repository: visit each
child; report a directory named `node_modules` and do not descend into it
(`-prune`); descend into other directories; never visit an entry deeper
than the `-maxdepth` limit.  Output is in traversal order. -/
def findNativeWalk (limit : Option Nat) :
    FSEntry → List String → Nat → List (List String)
  | e, dirSegs, depth =>
    match e with
    | .file _ => []
    | .dir cs => items cs dirSegs depth
where
  /-- Visit the children of a (visited, unmatched) directory. -/
  items : List (String × FSEntry) → List String → Nat → List (List String)
  | [], _, _ => []
  | (name, entry) :: rest, dirSegs, depth =>
    (if limit.any (fun l => decide (depth + 1 > l)) then []
     else if !(isDirEntry entry) then []
     else if name == "node_modules" then [dirSegs ++ [name]]
     else findNativeWalk limit entry (dirSegs ++ [name]) (depth + 1)) ++
    items rest dirSegs depth

/-- `findNodeModulesNative` from `src/core/fast-scanner.ts`: one native
`find` call with `-maxdepth (maxDepth + 1)` when a depth is given.  The
start path itself is reported (and pruned) when it is a directory named
`node_modules`. -/
def findNodeModulesNative (root : FSEntry) (startPath : List String)
    (maxDepth : Option Nat) : List (List String) :=
  let limit := maxDepth.map (fun d => d + 1)
  match root with
  | .file _ => []
  | .dir _ =>
    if startPath.getLast? = some "node_modules" then [startPath]
    else findNativeWalk limit root startPath 0

/-- The per-segment hidden test of the fast scanner:
`part.startsWith('.') && part !== '.' && part !== '..'`. -/
def hiddenPart (part : String) : Bool :=
  jsStartsWith part "." && !(part == ".") && !(part == "..")

/-- The fast scanner's post-filter on one found path: no hidden segment,
no system-folder segment. -/
def fastPathOk (p : List String) : Bool :=
  !(p.any hiddenPart) &&
  !(p.any (fun part => FAST_SKIP_FOLDERS.contains part))

/-- The fast scanner's two post-filters over the found path list: the
hidden/system filter, then the user exclude filter (applied only when
exclude patterns were supplied). -/
def applyFastFilters (regexTest : String → String → Bool)
    (opts : ScanOptions) (paths : List (List String)) : List (List String) :=
  let filtered := paths.filter fastPathOk
  match opts.excludePatterns with
  | none => filtered
  | some [] => filtered
  | some pats =>
    filtered.filter fun p =>
      !(pats.any fun pattern => patternMatches regexTest pattern (renderPath p))

/-- The include whitelist test, shared by both scanners: keep a record
when some include pattern matches its `projectPath` or its `path`. -/
def includeKeep (regexTest : String → String → Bool) (pats : List String)
    (p : List String) : Bool :=
  pats.any fun pattern =>
    patternMatches regexTest pattern (renderPath p.dropLast) ||
    patternMatches regexTest pattern (renderPath p)

/-- The include-pattern post-filter, applied identically by both scanners
when include patterns were supplied. -/
def includeFilter (regexTest : String → String → Bool) (opts : ScanOptions)
    (results : List (List String)) : List (List String) :=
  match opts.includePatterns with
  | none => results
  | some [] => results
  | some pats => results.filter (includeKeep regexTest pats)

/-- The final `sort((a, b) => b.size - a.size)` of both scanners: stable
sort by size, descending. -/
def sortBySizeDesc (folderSize : List String → Nat)
    (results : List (List String)) : List (List String) :=
  results.mergeSort fun a b => decide (folderSize b ≤ folderSize a)

/-- `scanNodeModules` from `src/core/scanner.ts`: the manual walk from the
resolved root, sorted by size descending. -/
def scanNodeModulesCore (regexTest : String → String → Bool)
    (folderSize : List String → Nat) (opts : ScanOptions) (root : FSEntry) :
    List (List String) :=
  sortBySizeDesc folderSize (scanJSWalk regexTest opts root opts.path 0)

/-- `scanNodeModulesJS` from `src/core/fast-scanner.ts`'s fallback module:
the manual walk, the include filter, then the size sort. -/
def scanNodeModulesJS (regexTest : String → String → Bool)
    (folderSize : List String → Nat) (opts : ScanOptions) (root : FSEntry) :
    List (List String) :=
  sortBySizeDesc folderSize
    (includeFilter regexTest opts (scanJSWalk regexTest opts root opts.path 0))

/-- `scanNodeModulesFast` from `src/core/fast-scanner.ts`: the native
`find`, the hidden/system post-filter, the exclude post-filter, the
include filter, then the size sort. -/
def scanNodeModulesFast (regexTest : String → String → Bool)
    (folderSize : List String → Nat) (opts : ScanOptions) (root : FSEntry) :
    List (List String) :=
  sortBySizeDesc folderSize
    (includeFilter regexTest opts
      (applyFastFilters regexTest opts
        (findNodeModulesNative root opts.path opts.depth)))

/-- Whether no exclude pattern uses the glob form (`*`), i.e. all exclude
patterns use substring semantics. -/
def globFree : Option (List String) → Bool
  | none => true
  | some pats => pats.all fun pattern => !(pattern.data.contains '*')

/-- Whether every directory name in the tree is a real `readdir` entry
name: never `.` and never `..`. -/
def wellNamedFS : FSEntry → Bool
  | .file _ => true
  | .dir cs => go cs
where
  /-- Check one child list. -/
  go : List (String × FSEntry) → Bool
  | [] => true
  | (name, e) :: rest =>
    !(name == ".") && !(name == "..") && wellNamedFS e && go rest

/-- Whether every directory in the tree lists pairwise-distinct child
names (a real filesystem property). -/
def nodupNamesFS : FSEntry → Bool
  | .file _ => true
  | .dir cs => decide ((cs.map (fun c => c.1)).Nodup) && go cs
where
  /-- Check one child list. -/
  go : List (String × FSEntry) → Bool
  | [] => true
  | (_, e) :: rest => nodupNamesFS e && go rest

/-! ## Concrete fixtures used by the witness theorems -/

/-- A concrete stand-in for the JS regex oracle, usable when no glob
pattern occurs. -/
def noGlobRegex : String → String → Bool := fun _ _ => false

/-- A concrete stand-in for the folder-size oracle. -/
def zeroFolderSize : List String → Nat := fun _ => 0

/-- A tree with `a/node_modules/node_modules`: a folder literally named
`node_modules` directly inside another. -/
def nestedNodeModulesTree : FSEntry :=
  .dir [("a", .dir [("node_modules",
    .dir [("node_modules", .dir []), ("pkg", .dir [])])])]

/-- Plain scan options rooted at `/root`. -/
def plainScanOptions : ScanOptions :=
  { path := ["", "root"], depth := none, quick := false,
    excludePatterns := none, includePatterns := none }

/-- Scan options rooted at `/.hidden` — the root itself carries a hidden
segment. -/
def hiddenRootOptions : ScanOptions :=
  { path := ["", ".hidden"], depth := none, quick := false,
    excludePatterns := none, includePatterns := none }

/-- A project under the hidden root. -/
def hiddenRootTree : FSEntry :=
  .dir [("proj", .dir [("node_modules", .dir [])])]

/-- A record whose deletion will succeed in `sampleEnv`. -/
def sampleInfoA : NodeModulesInfo :=
  { path := "/a/node_modules", projectPath := "/a", size := 100,
    lastModified := 0, packageCount := 3, hasPackageLock := true,
    hasYarnLock := false, hasPnpmLock := false, ageDays := 40,
    gitStatus := none }

/-- A record whose deletion will fail in `sampleEnv`. -/
def sampleInfoB : NodeModulesInfo :=
  { path := "/b/node_modules", projectPath := "/b", size := 200,
    lastModified := 0, packageCount := 7, hasPackageLock := false,
    hasYarnLock := true, hasPnpmLock := false, ageDays := 90,
    gitStatus := none }

/-- Live-mode options with no filters configured. -/
def sampleLiveOptions : CleanOptions :=
  { olderThan := none, between := none, minSize := none, maxSize := none,
    dryRun := false, fast := false, parallel := none, backup := false,
    lockCheck := false, skipDirtyGit := false }

/-- Dry-run options, with `backup` requested as well. -/
def sampleDryOptions : CleanOptions :=
  { sampleLiveOptions with dryRun := true, backup := true }

/-- Live-mode options with `backup` requested. -/
def sampleBackupOptions : CleanOptions :=
  { sampleLiveOptions with backup := true }

/-- An environment where every external operation succeeds except the
deletion of `/b/node_modules`. -/
def sampleEnv : CleanEnv :=
  { envHOME := some "/home/u", envUSERPROFILE := none,
    timestamp := "2024_01_01_000000", nowISO := "2024-01-01T00:00:00Z",
    ensureDirResult := .ok (), writeJsonResult := .ok (),
    deleteResult := fun _ p =>
      if p = "/b/node_modules" then some "EACCES" else none }

/-- `sampleEnv` with a failing manifest write. -/
def sampleBadEnv : CleanEnv :=
  { sampleEnv with writeJsonResult := .error "disk full" }

/-- The outcome of the live `sampleEnv` run on `[sampleInfoA, sampleInfoB]`:
one success, one error. -/
def samplePartitionResult : CleanResult :=
  { deletedCount := 1, freedBytes := 100, deletedPaths := ["/a/node_modules"],
    errors := [("/b/node_modules", "EACCES")], backupPath := none }

/-- A `node_modules` with one package holding a 50-byte `README.md`, a
30-byte `.map` file, and two files the deep cleaner keeps. -/
def sampleDeepTree : FSEntry :=
  .dir [("pkg", .dir [("README.md", .file 50), ("index.js.map", .file 30),
    ("index.js", .file 10), ("package.json", .file 5)])]

/-- A `node_modules` with one package holding a 0-byte `README.md`, an
empty (0-byte) `test` directory and a kept file. -/
def zeroSizeTree : FSEntry :=
  .dir [("pkg", .dir [("README.md", .file 0), ("test", .dir []),
    ("keep.js", .file 7)])]

/-- A `node_modules` listing with one package directory and one plain
file. -/
def miscCountTree : FSEntry :=
  .dir [("a", .dir []), ("b.txt", .file 5)]

/-- The `readdir` listing of a `node_modules` with two plain packages and
one `@scope` directory holding three subpackages, plus hidden entries at
both levels. -/
def sampleScopedChildren : List (String × FSEntry) :=
  [("a", .dir []), ("b", .dir []),
   ("@scope", .dir [("x", .dir []), ("y", .dir []), ("z", .dir []),
     (".DS_Store", .file 1)]),
   (".cache", .dir [])]

/-! ## Theorems: parsing and filters -/

/-- C8 (counterexample): the claim demands that every input not of the
shape `<integer><unit>` with unit in {`d`, `w`, `m`, `y`} fail with an
invalid-format error, but the source regex `/^(\d+)(d|w|m|y)$/i` carries
the `i` flag, so the uppercase-unit input `"30D"` — not of that shape —
is accepted and parses to 30. -/
theorem parseDuration_accepts_uppercase_unit : parseDuration "30D" = .ok 30 := rfl

/-- C8 (amended): `parseDuration` maps `"30d"` to 30, `"2w"` to 14, `"1m"`
to 30 and `"1y"` to 365 (integer × unit multiplier with d=1, w=7, m=30,
y=365); the unit letter is matched case-insensitively, and every input
string that is not a nonempty digit string followed by one unit letter in
{d, w, m, y} (in either case) — including `"30"` and `"xyz"` — fails with
an invalid-format error. -/
theorem parseDuration_grammar :
    parseDuration "30d" = .ok 30 ∧ parseDuration "2w" = .ok 14 ∧
    parseDuration "1m" = .ok 30 ∧ parseDuration "1y" = .ok 365 ∧
    (∃ e, parseDuration "30" = .error e) ∧ (∃ e, parseDuration "xyz" = .error e) ∧
    ∀ s : String, durationShapeSpec s = false → ∃ e, parseDuration s = .error e := by
  refine ⟨rfl, rfl, rfl, rfl, ⟨_, rfl⟩, ⟨_, rfl⟩, ?_⟩
  intro s h
  rcases hrev : s.data.reverse with _ | ⟨u, rd⟩ <;>
    simp only [parseDuration, hrev]
  · exact ⟨_, rfl⟩
  · have hdata : s.data = rd.reverse ++ [u] := by
      have := congrArg List.reverse hrev
      simpa using this
    rw [if_neg]
    · exact ⟨_, rfl⟩
    unfold durationShapeSpec at h
    rw [hdata, List.getLast?_concat, List.dropLast_concat] at h
    rintro ⟨h1, h2, h3⟩
    simp only [List.mem_cons, List.not_mem_nil, or_false] at h3
    have hne : rd.reverse.isEmpty = false := by
      cases hrd : rd.reverse <;> simp [hrd] at h1 ⊢
    have hu : (u.toLower == 'd' || u.toLower == 'w' || u.toLower == 'm' ||
        u.toLower == 'y') = true := by
      rcases h3 with h3 | h3 | h3 | h3 <;> simp [h3]
    simp [hne, h2, hu] at h

/-- C8 witness: the general failure clause of `parseDuration_grammar`
applied at the concrete non-grammatical input `"7q"`. -/
theorem parseDuration_grammar_witness :
    durationShapeSpec "7q" = false ∧ ∃ e, parseDuration "7q" = .error e :=
  ⟨rfl, parseDuration_grammar.2.2.2.2.2.2 "7q" rfl⟩

/-- C9: the pure age filter and size filter commute — filtering by age
bounds then size bounds yields the same list as filtering by size bounds
then age bounds, for every record list and every choice of bounds. -/
theorem filterByAge_filterBySize_comm (records : List NodeModulesInfo)
    (minDays maxDays : Option Int) (minBytes maxBytes : Option Nat) :
    filterBySize (filterByAge records minDays maxDays) minBytes maxBytes =
      filterByAge (filterBySize records minBytes maxBytes) minDays maxDays := by
  simp only [filterByAge, filterBySize, List.filter_filter]
  congr 1
  funext folder
  exact Bool.and_comm _ _

/-! ## Theorems: deletion engine -/

/-- Helper: the deletion loop adds exactly one record to exactly one of
the success bucket and the error bucket per input record. -/
theorem runDeletions_partition (env : CleanEnv) (options : CleanOptions)
    (fs : List NodeModulesInfo) (acc : CleanResult) :
    (runDeletions env options fs acc).1.deletedCount +
      (runDeletions env options fs acc).1.errors.length =
    acc.deletedCount + acc.errors.length + fs.length := by
  induction fs generalizing acc with
  | nil => simp [runDeletions]
  | cons folder rest ih =>
    cases h : env.deleteResult options.fast folder.path <;>
      simp [runDeletions, h, ih] <;> omega

/-- Helper: the deletion loop never touches `backupPath`. -/
theorem runDeletions_backupPath (env : CleanEnv) (options : CleanOptions)
    (fs : List NodeModulesInfo) (acc : CleanResult) :
    (runDeletions env options fs acc).1.backupPath = acc.backupPath := by
  induction fs generalizing acc with
  | nil => simp [runDeletions]
  | cons folder rest ih =>
    cases hd : env.deleteResult options.fast folder.path <;>
      simp [runDeletions, hd, ih]

/-- Helper: every effect of the deletion loop is a directory deletion. -/
theorem runDeletions_effects (env : CleanEnv) (options : CleanOptions)
    (fs : List NodeModulesInfo) (acc : CleanResult) :
    ∀ ef ∈ (runDeletions env options fs acc).2, ∃ q, ef = .deleteDir q := by
  induction fs generalizing acc with
  | nil => simp [runDeletions]
  | cons folder rest ih =>
    cases h : env.deleteResult options.fast folder.path <;>
      simp only [runDeletions, h, List.mem_cons]
    · rintro ef (rfl | hef)
      · exact ⟨_, rfl⟩
      · exact ih _ ef hef
    · exact ih _

/-- C2: for every record list, option set and external environment, a
`cleanNodeModules` call that does not throw satisfies
`deletedCount + errors.length = filtered.length`, where `filtered` is the
list surviving the age, size and lockfile filters — every filtered record
lands in exactly one of the two buckets, in dry-run and live mode alike. -/
theorem clean_partition (folders : List NodeModulesInfo) (options : CleanOptions)
    (env : CleanEnv) (r : CleanResult) (tr : List Effect)
    (filtered : List NodeModulesInfo)
    (hok : cleanNodeModules folders options env = (.ok r, tr))
    (hf : applyFilters folders options = .ok filtered) :
    r.deletedCount + r.errors.length = filtered.length := by
  unfold cleanNodeModules at hok
  rw [hf] at hok
  dsimp only at hok
  by_cases hdry : options.dryRun
  · rw [if_pos hdry] at hok
    obtain ⟨h1, -⟩ := Prod.mk.injEq .. ▸ hok
    cases h1
    simp
  · rw [if_neg hdry] at hok
    rcases hbk : (if options.backup then (createBackup filtered env).map (fun p => some p.1)
                  else .ok none) with e | bp
    · rw [hbk] at hok; cases hok
    · rw [hbk] at hok
      simp only [Prod.mk.injEq, Except.ok.injEq] at hok
      obtain ⟨rfl, -⟩ := hok
      have hr := runDeletions_partition env options filtered
        { deletedCount := 0, freedBytes := 0, deletedPaths := [], errors := [],
          backupPath := bp }
      simpa using hr

/-- C2 witness: a two-record list, one deletion succeeding and one
failing, with no filters configured: 1 success + 1 error = 2 filtered. -/
theorem clean_partition_witness :
    samplePartitionResult.deletedCount + samplePartitionResult.errors.length =
      [sampleInfoA, sampleInfoB].length :=
  clean_partition [sampleInfoA, sampleInfoB] sampleLiveOptions sampleEnv
    samplePartitionResult [.deleteDir "/a/node_modules"]
    [sampleInfoA, sampleInfoB] (by rfl) (by rfl)

/-- C3: with `dryRun = true`, a non-throwing `cleanNodeModules` returns
`deletedCount = filtered.length`, `freedBytes = Σ filtered sizes`,
`deletedPaths = filtered paths`, no errors and no backup manifest path,
and performs no filesystem mutation (its effect trace is empty) even when
`backup = true`. -/
theorem clean_dry_run (folders : List NodeModulesInfo) (options : CleanOptions)
    (env : CleanEnv) (res : Except String CleanResult) (tr : List Effect)
    (filtered : List NodeModulesInfo)
    (hdry : options.dryRun = true)
    (h : cleanNodeModules folders options env = (res, tr))
    (hf : applyFilters folders options = .ok filtered) :
    res = .ok { deletedCount := filtered.length
                freedBytes := filtered.foldl (fun sum f => sum + f.size) 0
                deletedPaths := filtered.map (fun f => f.path)
                errors := []
                backupPath := none } ∧ tr = [] := by
  unfold cleanNodeModules at h
  rw [hf] at h
  dsimp only at h
  rw [if_pos hdry] at h
  exact ⟨(Prod.mk.injEq .. ▸ h).1.symm, (Prod.mk.injEq .. ▸ h).2.symm⟩

/-- C3 witness: the dry-run contract evaluated on a concrete two-record
list with `backup = true`. -/
theorem clean_dry_run_witness :
    (cleanNodeModules [sampleInfoA, sampleInfoB] sampleDryOptions sampleEnv).1 =
      .ok { deletedCount := 2, freedBytes := 300
            deletedPaths := ["/a/node_modules", "/b/node_modules"]
            errors := [], backupPath := none } ∧
    (cleanNodeModules [sampleInfoA, sampleInfoB] sampleDryOptions sampleEnv).2 = [] := by
  have h := clean_dry_run [sampleInfoA, sampleInfoB] sampleDryOptions sampleEnv
    (cleanNodeModules [sampleInfoA, sampleInfoB] sampleDryOptions sampleEnv).1
    (cleanNodeModules [sampleInfoA, sampleInfoB] sampleDryOptions sampleEnv).2
    [sampleInfoA, sampleInfoB] rfl (by rfl) (by rfl)
  exact ⟨h.1, h.2⟩

/-- C4: in live mode with `backup = true`, when the manifest write
succeeds it is the first effect in the trace and everything after it is a
directory deletion (the manifest is durably written before any deletion
begins); when `createBackup` fails, the call throws that very error and
the effect trace is empty — in particular the deletion loop is never
entered. -/
theorem clean_backup_protocol (folders : List NodeModulesInfo)
    (options : CleanOptions) (env : CleanEnv) (res : Except String CleanResult)
    (tr : List Effect) (filtered : List NodeModulesInfo)
    (h : cleanNodeModules folders options env = (res, tr))
    (hf : applyFilters folders options = .ok filtered)
    (hdry : options.dryRun = false) (hb : options.backup = true) :
    (∀ e, createBackup filtered env = .error e → res = .error e ∧ tr = []) ∧
    (∀ bp, createBackup filtered env = .ok bp →
       (∃ r, res = .ok r ∧ r.backupPath = some bp.1) ∧
       ∃ rest, tr = .writeManifest bp.1 :: rest ∧
         ∀ ef ∈ rest, ∃ q, ef = .deleteDir q) := by
  unfold cleanNodeModules at h
  rw [hf] at h
  dsimp only at h
  rw [hdry, if_neg (by simp), hb, if_pos rfl] at h
  constructor
  · intro e hcb
    rw [hcb] at h
    dsimp only [Except.map] at h
    exact ⟨(Prod.mk.injEq .. ▸ h).1.symm, (Prod.mk.injEq .. ▸ h).2.symm⟩
  · intro bp hcb
    rw [hcb] at h
    dsimp only [Except.map] at h
    obtain ⟨hres, htr⟩ := Prod.mk.injEq .. ▸ h
    refine ⟨⟨_, hres.symm, ?_⟩, ?_⟩
    · simpa using runDeletions_backupPath env options filtered
        { deletedCount := 0, freedBytes := 0, deletedPaths := [], errors := [],
          backupPath := some bp.1 }
    · exact ⟨_, htr.symm, runDeletions_effects env options filtered _⟩

/-- C4 witness: the backup protocol evaluated at a concrete environment
whose manifest write succeeds, and the failure clause checked against an
environment whose `writeJson` fails. -/
theorem clean_backup_protocol_witness :
    ((cleanNodeModules [sampleInfoA] sampleBackupOptions sampleEnv).2.head? =
      some (.writeManifest "/home/u/.node-janitor/backups/backup_2024_01_01_000000.json")) ∧
    (cleanNodeModules [sampleInfoA] sampleBackupOptions sampleBadEnv).1 =
      .error "disk full" ∧
    (cleanNodeModules [sampleInfoA] sampleBackupOptions sampleBadEnv).2 = [] := by
  have hgood := clean_backup_protocol [sampleInfoA] sampleBackupOptions sampleEnv
    (cleanNodeModules [sampleInfoA] sampleBackupOptions sampleEnv).1
    (cleanNodeModules [sampleInfoA] sampleBackupOptions sampleEnv).2
    [sampleInfoA] rfl (by rfl) rfl rfl
  have hbad := clean_backup_protocol [sampleInfoA] sampleBackupOptions sampleBadEnv
    (cleanNodeModules [sampleInfoA] sampleBackupOptions sampleBadEnv).1
    (cleanNodeModules [sampleInfoA] sampleBackupOptions sampleBadEnv).2
    [sampleInfoA] rfl (by rfl) rfl rfl
  obtain ⟨-, hok⟩ := hgood
  obtain ⟨herr, -⟩ := hbad
  obtain ⟨-, rest, htr, -⟩ := hok _ (by rfl)
  obtain ⟨h1, h2⟩ := herr _ (by rfl)
  exact ⟨by rw [htr]; rfl, h1, h2⟩

/-! ## Theorems: deep cleaner -/

/-- Helper: in dry-run mode `safeDelete` never changes the filesystem. -/
theorem safeDelete_dryRun (fs : FSEntry) (p : List String) :
    (safeDelete fs p true).2 = fs := by
  cases h : lookupFS fs p with
  | none => simp [safeDelete, h]
  | some e => cases e <;> simp [safeDelete, h]

/-- Helper: in dry-run mode `safeDeleteDir` never changes the filesystem. -/
theorem safeDeleteDir_dryRun (fs : FSEntry) (p : List String) :
    (safeDeleteDir fs p true).2 = fs := by
  cases h : lookupFS fs p with
  | none => simp [safeDeleteDir, h]
  | some e => cases e <;> simp [safeDeleteDir, h]

/-- Helper: the filename pass keeps the filesystem intact in dry-run mode. -/
theorem cleanNamedFiles_dryRun (options : DeepCleanOptions)
    (hdry : options.dryRun = true) (pkg : List String) (names : List String)
    (st : DeepCleanResult × FSEntry) :
    (cleanNamedFiles options pkg names st).2 = st.2 := by
  induction names generalizing st with
  | nil => rfl
  | cons n more ih =>
    obtain ⟨r, fs⟩ := st
    simp only [cleanNamedFiles]
    rw [ih]
    simp [hdry, safeDelete_dryRun]

/-- Helper: the extension item loop keeps the filesystem intact in
dry-run mode. -/
theorem cleanExtensionItems_dryRun (options : DeepCleanOptions)
    (hdry : options.dryRun = true) (pkg : List String) (items : List String)
    (st : DeepCleanResult × FSEntry) :
    (cleanExtensionItems options pkg items st).2 = st.2 := by
  induction items generalizing st with
  | nil => rfl
  | cons n more ih =>
    obtain ⟨r, fs⟩ := st
    cases hm : matchesSomeExtension n DEEP_CLEAN_EXTENSIONS <;>
      simp [cleanExtensionItems, hm, ih, hdry, safeDelete_dryRun]

/-- Helper: `cleanByExtension` keeps the filesystem intact in dry-run
mode. -/
theorem cleanByExtension_dryRun (options : DeepCleanOptions)
    (hdry : options.dryRun = true) (pkg : List String)
    (st : DeepCleanResult × FSEntry) :
    (cleanByExtension options pkg st).2 = st.2 := by
  unfold cleanByExtension
  cases h : lookupFS st.2 pkg with
  | none => rfl
  | some e =>
    cases e with
    | file sz => rfl
    | dir cs => exact cleanExtensionItems_dryRun options hdry pkg _ st

/-- Helper: the directory pass keeps the filesystem intact in dry-run
mode. -/
theorem cleanDirectories_dryRun (options : DeepCleanOptions)
    (hdry : options.dryRun = true) (pkg : List String) (names : List String)
    (st : DeepCleanResult × FSEntry) :
    (cleanDirectories options pkg names st).2 = st.2 := by
  induction names generalizing st with
  | nil => rfl
  | cons n more ih =>
    obtain ⟨r, fs⟩ := st
    simp only [cleanDirectories]
    rw [ih]
    simp [hdry, safeDeleteDir_dryRun]

/-- Helper: the package loop keeps the filesystem intact in dry-run mode. -/
theorem deepCleanGo_dryRun (options : DeepCleanOptions)
    (hdry : options.dryRun = true) (packages : List (List String))
    (st : DeepCleanResult × FSEntry) :
    (deepCleanGo options packages st).2 = st.2 := by
  induction packages generalizing st with
  | nil => rfl
  | cons pkg more ih =>
    simp only [deepCleanGo]
    rw [ih, deepCleanPackage, cleanDirectories_dryRun options hdry,
      cleanByExtension_dryRun options hdry, cleanNamedFiles_dryRun options hdry]

/-- Helper: `deepClean` with `dryRun = true` performs no filesystem
mutation at all. -/
theorem deepClean_dryRun_frame (fs : FSEntry) (options : DeepCleanOptions)
    (hdry : options.dryRun = true) : (deepClean fs options).2 = fs :=
  deepCleanGo_dryRun options hdry _ _

/-- C1 (counterexample): on a package with a 50-byte `README.md` and a
30-byte `.map` file among otherwise-kept files, the claim demands that
dry run and live run both report `freedBytes = 80`; but in dry-run mode
`README.md` survives the exact-filename pass, is listed again by the
extension pass (it ends in `.md`), and is counted twice — the dry run
reports 130 while the live run reports 80. -/
theorem deepClean_dry_overcounts :
    (deepClean sampleDeepTree { dryRun := true, verbose := false }).1.freedBytes = 130 ∧
    (deepClean sampleDeepTree { dryRun := false, verbose := false }).1.freedBytes = 80 :=
  ⟨rfl, rfl⟩

/-- C1 (amended): `deepClean` with `dryRun = true` computes sizes without
mutating any file (for every tree and options the resulting filesystem is
unchanged), but a file matched by both the exact-filename pass and the
extension pass is counted twice in dry-run mode only: on the fixture the
dry run reports `freedBytes = 130` over 3 deletions while the live run
reports 80 over 2; the live run removes exactly the `README.md` and the
`.map` file and leaves the other files intact. -/
theorem deepClean_dry_live_contract :
    (∀ (fs : FSEntry) (options : DeepCleanOptions), options.dryRun = true →
        (deepClean fs options).2 = fs) ∧
    (deepClean sampleDeepTree { dryRun := true, verbose := false }).1 =
      { deletedFileCount := 3, processedFolders := 1, freedBytes := 130,
        deletedFiles := none } ∧
    (deepClean sampleDeepTree { dryRun := false, verbose := false }).1 =
      { deletedFileCount := 2, processedFolders := 1, freedBytes := 80,
        deletedFiles := none } ∧
    lookupFS (deepClean sampleDeepTree { dryRun := false, verbose := false }).2
      ["pkg", "README.md"] = none ∧
    lookupFS (deepClean sampleDeepTree { dryRun := false, verbose := false }).2
      ["pkg", "index.js.map"] = none ∧
    lookupFS (deepClean sampleDeepTree { dryRun := false, verbose := false }).2
      ["pkg", "index.js"] = some (.file 10) ∧
    lookupFS (deepClean sampleDeepTree { dryRun := false, verbose := false }).2
      ["pkg", "package.json"] = some (.file 5) :=
  ⟨fun fs options hdry => deepClean_dryRun_frame fs options hdry,
   rfl, rfl, rfl, rfl, rfl, rfl⟩

/-- C1 witness: the no-mutation clause applied to the concrete fixture. -/
theorem deepClean_dry_live_contract_witness :
    (deepClean sampleDeepTree { dryRun := true, verbose := false }).2 =
      sampleDeepTree :=
  deepClean_dry_live_contract.1 sampleDeepTree
    { dryRun := true, verbose := false } rfl

/-- C10: a denylisted target whose computed size is 0 — an existing empty
file, or a directory whose recursive file-size sum is 0 — is still removed
by a live `deepClean` but contributes nothing to any counter: `safeDelete`
and `safeDeleteDir` still remove it while returning 0, and the accounting
step records only sizes strictly greater than 0.  On the fixture, the
0-byte `README.md` and the empty `test` directory are gone after the live
run, yet `deletedFileCount`, `freedBytes` and the verbose `deletedFiles`
list all stay empty. -/
theorem deepClean_zero_size_uncounted :
    (∀ (fs : FSEntry) (p : List String), lookupFS fs p = some (.file 0) →
        safeDelete fs p false = (0, removeFS fs p)) ∧
    (∀ (fs : FSEntry) (p : List String) (cs : List (String × FSEntry)),
        lookupFS fs p = some (.dir cs) → entrySize (.dir cs) = 0 →
        safeDeleteDir fs p false = (0, removeFS fs p)) ∧
    (∀ (p : List String) (r : DeepCleanResult), deepCleanRecord 0 p r = r) ∧
    (deepClean zeroSizeTree { dryRun := false, verbose := true }).1 =
      { deletedFileCount := 0, processedFolders := 1, freedBytes := 0,
        deletedFiles := some [] } ∧
    lookupFS zeroSizeTree ["pkg", "README.md"] = some (.file 0) ∧
    lookupFS (deepClean zeroSizeTree { dryRun := false, verbose := true }).2
      ["pkg", "README.md"] = none ∧
    lookupFS (deepClean zeroSizeTree { dryRun := false, verbose := true }).2
      ["pkg", "test"] = none ∧
    lookupFS (deepClean zeroSizeTree { dryRun := false, verbose := true }).2
      ["pkg", "keep.js"] = some (.file 7) := by
  refine ⟨?_, ?_, ?_, rfl, rfl, rfl, rfl, rfl⟩
  · intro fs p h
    simp [safeDelete, h]
  · intro fs p cs h hz
    simp [safeDeleteDir, h, hz]
  · intro p r
    simp [deepCleanRecord]

/-- C10 witness: the `safeDelete` clause applied to the concrete 0-byte
file of the fixture. -/
theorem deepClean_zero_size_uncounted_witness :
    safeDelete zeroSizeTree ["pkg", "README.md"] false =
      (0, removeFS zeroSizeTree ["pkg", "README.md"]) :=
  deepClean_zero_size_uncounted.1 zeroSizeTree ["pkg", "README.md"] rfl

/-! ## Theorems: package counting -/

/-- Helper: when every non-hidden entry at both levels is a directory, the
item loop of `countPackages` throws nothing and computes the spec count. -/
theorem countPackages_go_eq (cs : List (String × FSEntry))
    (h : nonHiddenEntriesAreDirs cs = true) :
    countPackages.go cs = some (specPackageCount.go cs) := by
  induction cs with
  | nil => rfl
  | cons c rest ih =>
    obtain ⟨name, e⟩ := c
    simp only [nonHiddenEntriesAreDirs, List.all_cons, Bool.and_eq_true] at h
    obtain ⟨hc, hrest⟩ := h
    have ih' := ih (by simpa [nonHiddenEntriesAreDirs] using hrest)
    cases hdot : jsStartsWith name "." with
    | true => simp [countPackages.go, specPackageCount.go, hdot, ih']
    | false =>
      cases e with
      | file sz => simp [hdot] at hc
      | dir sub =>
        cases hat : jsStartsWith name "@" with
        | false =>
          simp [countPackages.go, specPackageCount.go, hdot, hat, ih',
            Nat.add_comm]
        | true =>
          have hall : sub.all
              (fun d => jsStartsWith d.1 "." || isDirEntry d.2) = true := by
            simpa [hdot, hat] using hc
          have hsub : ∀ d ∈ sub, (!(jsStartsWith d.1 ".")) =
              (!(jsStartsWith d.1 ".") && isDirEntry d.2) := by
            intro d hd
            have hg := List.all_eq_true.mp hall d hd
            cases hdd : jsStartsWith d.1 "." with
            | true => simp [hdd]
            | false => simp [hdd] at hg ⊢; simp [hg]
          simp [countPackages.go, specPackageCount.go, hdot, hat, ih',
            List.filter_congr hsub, Nat.add_comm]

/-- C7 (counterexample): the claim says non-directory entries contribute
nothing to `packageCount`, but `countPackages` never stats its top-level
entries: on a `node_modules` with one package directory and one plain
file it returns 2, while the number of immediate child package
directories is 1. -/
theorem countPackages_counts_plain_files :
    countPackages miscCountTree = 2 ∧ specPackageCount miscCountTree = 1 :=
  ⟨rfl, rfl⟩

/-- C7 (amended): provided every non-hidden entry at both levels is a
directory, `countPackages` equals the number of immediate child package
directories, each `@scope` directory expanded one level with its children
counted instead of the scope itself, hidden entries excluded at both
levels; in particular two plain packages plus one `@scope` directory with
three subpackages (and hidden entries at both levels) yield
`packageCount = 5`.  (Without that proviso, non-hidden plain files are
counted too, and a non-directory `@`-entry collapses the count to 0.) -/
theorem countPackages_agreement :
    (∀ cs : List (String × FSEntry), nonHiddenEntriesAreDirs cs = true →
        countPackages (.dir cs) = specPackageCount (.dir cs)) ∧
    countPackages (.dir sampleScopedChildren) = 5 ∧
    specPackageCount (.dir sampleScopedChildren) = 5 := by
  refine ⟨?_, rfl, rfl⟩
  intro cs h
  simp [countPackages, specPackageCount, countPackages_go_eq cs h]

/-- C7 witness: the agreement clause applied to the concrete scoped
fixture. -/
theorem countPackages_agreement_witness :
    countPackages (.dir sampleScopedChildren) =
      specPackageCount (.dir sampleScopedChildren) :=
  countPackages_agreement.1 sampleScopedChildren rfl

/-! ## Theorems: discovery -/

/-- Helper: `renderPath` on a cons with a nonempty tail. -/
theorem renderPath_cons₂ (s : String) (a : List String) (h : a ≠ []) :
    renderPath (s :: a) = s ++ "/" ++ renderPath a := by
  cases a with
  | nil => exact absurd rfl h
  | cons b m => rfl

/-- Helper: the rendered string of a path is a string prefix of the
rendered string of any extension of it. -/
theorem renderPath_data_isPre (a b : List String) :
    (renderPath a).data <+: (renderPath (a ++ b)).data := by
  induction a with
  | nil => exact List.nil_prefix
  | cons s a' ih =>
    cases a' with
    | nil =>
      cases b with
      | nil => exact List.prefix_refl _
      | cons c m =>
        rw [List.singleton_append, renderPath_cons₂ s (c :: m) (by simp)]
        refine ⟨"/".data ++ (renderPath (c :: m)).data, ?_⟩
        show s.data ++ ("/".data ++ (renderPath (c :: m)).data) =
          ((s ++ "/") ++ renderPath (c :: m)).data
        rw [show ((s ++ "/") ++ renderPath (c :: m)).data =
          (s.data ++ "/".data) ++ (renderPath (c :: m)).data from rfl,
          List.append_assoc]
    | cons s2 a'' =>
      rw [List.cons_append, renderPath_cons₂ s (s2 :: a'') (by simp),
        renderPath_cons₂ s (s2 :: a'' ++ b) (by simp)]
      show (s ++ "/").data ++ (renderPath (s2 :: a'')).data <+:
        (s ++ "/").data ++ (renderPath (s2 :: a'' ++ b)).data
      exact (List.prefix_append_right_inj _).mpr ih

/-- Helper: a substring hit on a path string persists on any extension of
the path. -/
theorem substrHit_mono (pattern : String) (a b : List String)
    (h : substrHit pattern (renderPath a) = true) :
    substrHit pattern (renderPath (a ++ b)) = true := by
  unfold substrHit at h ⊢
  rw [decide_eq_true_eq] at h ⊢
  have h2 : (renderPath a).data <:+: (renderPath (a ++ b)).data :=
    List.IsPrefix.isInfix (renderPath_data_isPre a b)
  exact h.trans h2

/-- Helper: with substring-only exclude patterns, an exclude hit on a path
persists on any extension of the path. -/
theorem excludeHit_mono (regexTest : String → String → Bool)
    (pats : Option (List String)) (hg : globFree pats = true)
    (a b : List String)
    (h : excludeHit regexTest pats (renderPath a) = true) :
    excludeHit regexTest pats (renderPath (a ++ b)) = true := by
  cases pats with
  | none => simp [excludeHit] at h
  | some ps =>
    simp only [excludeHit, List.any_eq_true] at h ⊢
    obtain ⟨pattern, hmem, hhit⟩ := h
    refine ⟨pattern, hmem, ?_⟩
    have hng : pattern.data.contains '*' = false := by
      simp only [globFree, List.all_eq_true] at hg
      simpa using hg pattern hmem
    simp only [patternMatches, hng, Bool.false_eq_true, if_false] at hhit ⊢
    exact substrHit_mono pattern a b hhit

/-- Helper: the fast post-filters on an empty list. -/
theorem applyFastFilters_nil (regexTest : String → String → Bool)
    (opts : ScanOptions) : applyFastFilters regexTest opts [] = [] := by
  unfold applyFastFilters
  rcases opts.excludePatterns with _ | (_ | ⟨p, ps⟩) <;> rfl

/-- Helper: the fast post-filters distribute over list append. -/
theorem applyFastFilters_append (regexTest : String → String → Bool)
    (opts : ScanOptions) (xs ys : List (List String)) :
    applyFastFilters regexTest opts (xs ++ ys) =
      applyFastFilters regexTest opts xs ++ applyFastFilters regexTest opts ys := by
  unfold applyFastFilters
  rcases opts.excludePatterns with _ | (_ | ⟨p, ps⟩) <;>
    simp [List.filter_append]

/-- Helper: the fast post-filters drop every path that fails the
hidden/system test or hits an exclude pattern. -/
theorem applyFastFilters_eq_nil (regexTest : String → String → Bool)
    (opts : ScanOptions) (paths : List (List String))
    (h : ∀ p ∈ paths, fastPathOk p = false ∨
        excludeHit regexTest opts.excludePatterns (renderPath p) = true) :
    applyFastFilters regexTest opts paths = [] := by
  unfold applyFastFilters
  rcases hpat : opts.excludePatterns with _ | (_ | ⟨q, qs⟩)
  · rw [List.filter_eq_nil_iff]
    intro p hp
    rcases h p hp with hbad | hexc
    · simp [hbad]
    · rw [hpat] at hexc
      simp [excludeHit] at hexc
  · rw [List.filter_eq_nil_iff]
    intro p hp
    rcases h p hp with hbad | hexc
    · simp [hbad]
    · rw [hpat] at hexc
      simp [excludeHit] at hexc
  · rw [List.filter_eq_nil_iff]
    intro p hp
    rw [List.mem_filter] at hp
    rcases h p hp.1 with hbad | hexc
    · rw [hp.2] at hbad
      cases hbad
    · rw [hpat] at hexc
      simp only [excludeHit] at hexc
      simp [hexc]

/-- Helper: the fast post-filters keep a clean singleton. -/
theorem applyFastFilters_singleton (regexTest : String → String → Bool)
    (opts : ScanOptions) (p : List String)
    (h1 : fastPathOk p = true)
    (h2 : excludeHit regexTest opts.excludePatterns (renderPath p) = false) :
    applyFastFilters regexTest opts [p] = [p] := by
  unfold applyFastFilters
  rcases hpat : opts.excludePatterns with _ | (_ | ⟨q, qs⟩)
  · simp [List.filter, h1]
  · simp [List.filter, h1]
  · rw [hpat] at h2
    simp only [excludeHit, List.any_cons, Bool.or_eq_false_iff] at h2
    simp [List.filter, h1, h2.1, h2.2]

/-- Helper: appending a clean segment preserves the hidden/system test. -/
theorem fastPathOk_snoc (segs : List String) (name : String)
    (hs : fastPathOk segs = true) (h1 : hiddenPart name = false)
    (h2 : FAST_SKIP_FOLDERS.contains name = false) :
    fastPathOk (segs ++ [name]) = true := by
  have h3 : ([name].any hiddenPart) = false := by simp [h1]
  have h4 : ([name].any (fun part => FAST_SKIP_FOLDERS.contains part)) = false := by
    simpa using h2
  simp only [fastPathOk, List.any_append, h3, h4, Bool.or_false]
  exact hs

/-- Helper: a path containing a hidden or system segment fails the
hidden/system test. -/
theorem fastPathOk_false_of_mem (p : List String) (name : String)
    (hmem : name ∈ p)
    (h : (hiddenPart name || FAST_SKIP_FOLDERS.contains name) = true) :
    fastPathOk p = false := by
  have h' : hiddenPart name = true ∨ FAST_SKIP_FOLDERS.contains name = true := by
    simpa using h
  unfold fastPathOk
  rcases h' with h' | h'
  · have hany : p.any hiddenPart = true := List.any_eq_true.mpr ⟨name, hmem, h'⟩
    simp [hany]
  · have hany : (p.any fun part => FAST_SKIP_FOLDERS.contains part) = true :=
      List.any_eq_true.mpr ⟨name, hmem, h'⟩
    rw [Bool.and_eq_false_iff]
    right
    rw [hany]
    rfl

/-- Helper: a name the walker skips (hidden or in `SKIP_FOLDERS`) is also
rejected by the fast hidden/system test, provided it is a real `readdir`
entry name. -/
theorem skipName_fastReject (name : String)
    (h : (jsStartsWith name "." || SKIP_FOLDERS.contains name) = true)
    (h1 : (name == ".") = false) (h2 : (name == "..") = false) :
    (hiddenPart name || FAST_SKIP_FOLDERS.contains name) = true := by
  have h' : jsStartsWith name "." = true ∨ SKIP_FOLDERS.contains name = true := by
    simpa using h
  rcases h' with hs | hm
  · simp [hiddenPart, hs, h1, h2]
  · have hmem : name ∈ SKIP_FOLDERS := by simpa using hm
    fin_cases hmem <;> decide

/-- Helper: every system folder of the fast scanner's list is in the
walker's list, so a name absent from `SKIP_FOLDERS` is absent from
`FAST_SKIP_FOLDERS`. -/
theorem fastSkip_of_skip (name : String)
    (h : SKIP_FOLDERS.contains name = false) :
    FAST_SKIP_FOLDERS.contains name = false := by
  by_contra hc
  rw [Bool.not_eq_false] at hc
  have hmem : name ∈ FAST_SKIP_FOLDERS := by simpa using hc
  have hskip : SKIP_FOLDERS.contains name = true := by
    fin_cases hmem <;> decide
  rw [hskip] at h
  cases h

/-- Helper: the find depth guard at `depth + 1` against `maxDepth + 1`
matches the walker's guard at `depth` against `maxDepth`. -/
theorem limit_guard (optsDepth : Option Nat) (depth : Nat) :
    ((optsDepth.map (fun d => d + 1)).any (fun l => decide (depth + 1 > l))) =
      optsDepth.any (fun d => decide (depth > d)) := by
  cases optsDepth <;> simp [Nat.add_lt_add_iff_right]

/-- Helper: once past the walker's depth limit the find traversal visits
no further entry. -/
theorem findItems_of_deep (d : Nat) (cs : List (String × FSEntry))
    (segs : List String) (depth : Nat) (h : depth > d) :
    findNativeWalk.items (some (d + 1)) cs segs depth = [] := by
  induction cs with
  | nil => rfl
  | cons c rest ih =>
    obtain ⟨name, e⟩ := c
    simp [findNativeWalk.items, ih, Option.any,
      Nat.add_lt_add_right h 1]

/-- Helper: every path reported by the find traversal below a directory
extends that directory's path. -/
theorem findWalk_extendsBase (limit : Option Nat) :
    ∀ (e : FSEntry) (segs : List String) (depth : Nat) (p : List String),
      p ∈ findNativeWalk limit e segs depth → segs <+: p := by
  refine findNativeWalk.induct limit
    (fun cs segs depth =>
      ∀ p ∈ findNativeWalk.items limit cs segs depth, segs <+: p)
    (fun e segs depth =>
      ∀ p ∈ findNativeWalk limit e segs depth, segs <+: p)
    ?_ ?_ ?_ ?_
  · intro dirSegs depth a p hp
    simp [findNativeWalk] at hp
  · intro dirSegs depth cs h1 p hp
    exact h1 p hp
  · intro segs depth p hp
    simp [findNativeWalk.items] at hp
  · intro name entry rest dirSegs depth ih2 ih1 p hp
    simp only [findNativeWalk.items] at hp
    rcases List.mem_append.mp hp with hp | hp
    · by_cases hg : (limit.any fun l => decide (depth + 1 > l)) = true
      · simp [hg] at hp
      · rw [if_neg hg] at hp
        by_cases hdir : (!(isDirEntry entry)) = true
        · simp [hdir] at hp
        · rw [if_neg hdir] at hp
          by_cases hnm : (name == "node_modules") = true
          · rw [if_pos hnm] at hp
            rw [List.mem_singleton.mp hp]
            exact List.prefix_append _ _
          · rw [if_neg hnm] at hp
            exact (List.prefix_append dirSegs [name]).trans (ih2 p hp)
    · exact ih1 p hp

/-- Helper (the heart of the strategy equivalence): below any directory
already accepted by the hidden/system filter, the fast pipeline — native
find followed by the hidden/system and substring-exclude post-filters —
produces exactly the list the manual walker produces, in the same order. -/
theorem fastFilter_find_eq_walk (regexTest : String → String → Bool)
    (opts : ScanOptions) (hg : globFree opts.excludePatterns = true) :
    ∀ (e : FSEntry) (segs : List String) (depth : Nat),
      wellNamedFS e = true → fastPathOk segs = true →
      applyFastFilters regexTest opts
          (findNativeWalk (opts.depth.map (fun d => d + 1)) e segs depth) =
        scanJSWalk regexTest opts e segs depth := by
  refine findNativeWalk.induct (opts.depth.map (fun d => d + 1))
    (fun cs segs depth =>
      opts.depth.any (fun d => decide (depth > d)) = false →
      wellNamedFS.go cs = true → fastPathOk segs = true →
      applyFastFilters regexTest opts
          (findNativeWalk.items (opts.depth.map (fun d => d + 1)) cs segs depth) =
        scanJSWalk.items regexTest opts cs segs depth)
    (fun e segs depth =>
      wellNamedFS e = true → fastPathOk segs = true →
      applyFastFilters regexTest opts
          (findNativeWalk (opts.depth.map (fun d => d + 1)) e segs depth) =
        scanJSWalk regexTest opts e segs depth)
    ?_ ?_ ?_ ?_
  · -- find visits a file: both sides empty
    intro dirSegs depth a _ _
    cases hgd : opts.depth.any (fun d => decide (depth > d)) <;>
      simp [findNativeWalk, scanJSWalk, hgd, applyFastFilters_nil]
  · -- find visits a directory
    intro dirSegs depth cs ih1 hwn hfast
    by_cases hgd : opts.depth.any (fun d => decide (depth > d)) = true
    · -- the walker's depth guard fires; find visits no child either
      obtain ⟨d, hd, hdd⟩ : ∃ d, opts.depth = some d ∧ depth > d := by
        cases hO : opts.depth with
        | none => rw [hO] at hgd; simp [Option.any] at hgd
        | some d =>
          rw [hO] at hgd
          simp only [Option.any, decide_eq_true_eq] at hgd
          exact ⟨d, rfl, hgd⟩
      have hfind : findNativeWalk (opts.depth.map (fun d => d + 1)) (.dir cs)
          dirSegs depth = [] := by
        rw [show findNativeWalk (opts.depth.map (fun d => d + 1)) (.dir cs)
            dirSegs depth =
          findNativeWalk.items (opts.depth.map (fun d => d + 1)) cs dirSegs depth
          from rfl, hd]
        exact findItems_of_deep d cs dirSegs depth hdd
      rw [hfind, applyFastFilters_nil]
      simp [scanJSWalk, hgd]
    · rw [Bool.not_eq_true] at hgd
      have hitems := ih1 hgd hwn hfast
      rw [show findNativeWalk (opts.depth.map (fun d => d + 1)) (.dir cs)
          dirSegs depth =
        findNativeWalk.items (opts.depth.map (fun d => d + 1)) cs dirSegs depth
        from rfl, hitems]
      simp [scanJSWalk, hgd]
  · -- empty child list
    intro segs depth _ _ _
    simp [findNativeWalk.items, scanJSWalk.items, applyFastFilters_nil]
  · -- one child
    intro name entry rest dirSegs depth ih2 ih1 hguard hwn hfast
    simp only [wellNamedFS.go, Bool.and_eq_true, Bool.not_eq_true'] at hwn
    obtain ⟨⟨⟨hn1, hn2⟩, hwne⟩, hwnr⟩ := hwn
    have hg1 : ((opts.depth.map (fun d => d + 1)).any
        fun l => decide (depth + 1 > l)) = false := by
      rw [limit_guard]
      exact hguard
    simp only [findNativeWalk.items, scanJSWalk.items]
    rw [applyFastFilters_append, ih1 hguard hwnr hfast]
    congr 1
    rw [if_neg (by rw [hg1]; exact Bool.false_ne_true)]
    by_cases hskip : (jsStartsWith name "." || SKIP_FOLDERS.contains name) = true
    · rw [if_pos hskip]
      have hreject := skipName_fastReject name hskip hn1 hn2
      cases entry with
      | file sz => simp [isDirEntry, applyFastFilters_nil]
      | dir sub =>
        rw [if_neg (by simp [isDirEntry])]
        by_cases hnm : (name == "node_modules") = true
        · exfalso
          rw [show name = "node_modules" from by simpa using hnm] at hskip
          exact absurd hskip (by decide)
        · rw [if_neg hnm]
          apply applyFastFilters_eq_nil
          intro p hp
          left
          have hpre : (dirSegs ++ [name]) <+: p :=
            findWalk_extendsBase _ _ _ _ p hp
          exact fastPathOk_false_of_mem p name (hpre.subset (by simp)) hreject
    · rw [if_neg hskip]
      have hskip' : jsStartsWith name "." = false ∧
          SKIP_FOLDERS.contains name = false := by
        rw [Bool.not_eq_true, Bool.or_eq_false_iff] at hskip
        exact hskip
      by_cases hexc : excludeHit regexTest opts.excludePatterns
          (renderPath (dirSegs ++ [name])) = true
      · rw [if_pos hexc]
        cases entry with
        | file sz => simp [isDirEntry, applyFastFilters_nil]
        | dir sub =>
          rw [if_neg (by simp [isDirEntry])]
          by_cases hnm : (name == "node_modules") = true
          · rw [if_pos hnm]
            apply applyFastFilters_eq_nil
            intro p hp
            right
            rw [List.mem_singleton.mp hp]
            exact hexc
          · rw [if_neg hnm]
            apply applyFastFilters_eq_nil
            intro p hp
            right
            obtain ⟨t, ht⟩ := findWalk_extendsBase _ _ _ _ p hp
            rw [← ht]
            exact excludeHit_mono regexTest opts.excludePatterns hg
              (dirSegs ++ [name]) t hexc
      · rw [if_neg hexc]
        have hfast' : fastPathOk (dirSegs ++ [name]) = true := by
          apply fastPathOk_snoc _ _ hfast
          · simp [hiddenPart, hskip'.1]
          · exact fastSkip_of_skip name hskip'.2
        cases entry with
        | file sz =>
          rw [if_pos (show (!(isDirEntry (FSEntry.file sz))) = true by rfl)]
          rw [if_pos (show (!(isDirEntry (FSEntry.file sz))) = true by rfl)]
          exact applyFastFilters_nil regexTest opts
        | dir sub =>
          rw [if_neg (show ¬(!(isDirEntry (FSEntry.dir sub))) = true by simp [isDirEntry])]
          rw [if_neg (show ¬(!(isDirEntry (FSEntry.dir sub))) = true by simp [isDirEntry])]
          by_cases hnm : (name == "node_modules") = true
          · rw [if_pos hnm]
            rw [if_pos hnm]
            exact applyFastFilters_singleton regexTest opts _ hfast'
              (by rwa [Bool.not_eq_true] at hexc)
          · rw [if_neg hnm]
            rw [if_neg hnm]
            exact ih2 hwne hfast'

/-- Helper: the full fast pipeline up to (but excluding) the shared
include filter and sort agrees with the manual walker from the root. -/
theorem fast_pre_pipeline_eq (regexTest : String → String → Bool)
    (opts : ScanOptions) (root : FSEntry)
    (hg : globFree opts.excludePatterns = true)
    (hwn : wellNamedFS root = true)
    (hroot : fastPathOk opts.path = true)
    (hname : opts.path.getLast? ≠ some "node_modules") :
    applyFastFilters regexTest opts
        (findNodeModulesNative root opts.path opts.depth) =
      scanJSWalk regexTest opts root opts.path 0 := by
  cases root with
  | file sz =>
    cases hgd : opts.depth.any (fun d => decide (0 > d)) <;>
      simp [findNodeModulesNative, scanJSWalk, hgd, applyFastFilters_nil]
  | dir cs =>
    rw [show findNodeModulesNative (.dir cs) opts.path opts.depth =
        findNativeWalk (opts.depth.map fun d => d + 1) (.dir cs) opts.path 0
        from by
      unfold findNodeModulesNative
      dsimp only
      rw [if_neg hname]]
    exact fastFilter_find_eq_walk regexTest opts hg (.dir cs) opts.path 0
      hwn hroot

/-- C6 (counterexample): the claim demands that the two strategies agree
for every root; but the fast scanner's post-filter checks every segment of
each found path — including the segments of the root itself, which the
walker never inspects.  Rooted at `/.hidden`, the walker reports the
project's `node_modules` while the fast strategy filters it out and
returns nothing. -/
theorem fast_js_strategies_diverge :
    scanNodeModulesJS noGlobRegex zeroFolderSize hiddenRootOptions
        hiddenRootTree = [["", ".hidden", "proj", "node_modules"]] ∧
    scanNodeModulesFast noGlobRegex zeroFolderSize hiddenRootOptions
        hiddenRootTree = [] := by
  constructor
  · unfold scanNodeModulesJS
    rw [show includeFilter noGlobRegex hiddenRootOptions
        (scanJSWalk noGlobRegex hiddenRootOptions hiddenRootTree
          hiddenRootOptions.path 0) =
      [["", ".hidden", "proj", "node_modules"]] from rfl]
    simp [sortBySizeDesc, List.mergeSort]
  · unfold scanNodeModulesFast
    rw [show includeFilter noGlobRegex hiddenRootOptions
        (applyFastFilters noGlobRegex hiddenRootOptions
          (findNodeModulesNative hiddenRootTree hiddenRootOptions.path
            hiddenRootOptions.depth)) = [] from rfl]
    simp [sortBySizeDesc]

/-- C6 (amended): for every root path whose own segments pass the fast
scanner's hidden/system filter and whose final segment is not itself
`node_modules`, every depth limit, every substring (non-glob) exclude
pattern set, every include pattern set, every tree of real `readdir`
names, every behaviour of the JS regex engine and every size oracle, the
native fast-scan strategy and the manual tree-walk fallback return the
same final filtered list of `node_modules` paths — same depth semantics,
same hidden/system/exclude pruning, same include filter, same order. -/
theorem fast_js_strategies_agree :
    ∀ (regexTest : String → String → Bool) (folderSize : List String → Nat)
      (opts : ScanOptions) (root : FSEntry),
      globFree opts.excludePatterns = true →
      wellNamedFS root = true →
      fastPathOk opts.path = true →
      opts.path.getLast? ≠ some "node_modules" →
      scanNodeModulesFast regexTest folderSize opts root =
        scanNodeModulesJS regexTest folderSize opts root := by
  intro regexTest folderSize opts root hg hwn hroot hname
  unfold scanNodeModulesFast scanNodeModulesJS
  rw [fast_pre_pipeline_eq regexTest opts root hg hwn hroot hname]

/-- C6 witness: the two strategies evaluated on the concrete nested
fixture under clean hypotheses. -/
theorem fast_js_strategies_agree_witness :
    scanNodeModulesFast noGlobRegex zeroFolderSize plainScanOptions
        nestedNodeModulesTree =
      scanNodeModulesJS noGlobRegex zeroFolderSize plainScanOptions
        nestedNodeModulesTree :=
  fast_js_strategies_agree noGlobRegex zeroFolderSize plainScanOptions
    nestedNodeModulesTree rfl rfl rfl (by decide)

/-- Helper: every path the walker records extends the scanned directory by
a nonempty relative part that ends in `node_modules` and contains no other
`node_modules` segment — the walker never descends into a match. -/
theorem scanWalk_shape (regexTest : String → String → Bool)
    (opts : ScanOptions) :
    ∀ (e : FSEntry) (segs : List String) (depth : Nat) (p : List String),
      p ∈ scanJSWalk regexTest opts e segs depth →
      ∃ rel, p = segs ++ rel ∧ rel ≠ [] ∧
        rel.getLast? = some "node_modules" ∧
        ∀ q ∈ rel.dropLast, q ≠ "node_modules" := by
  refine scanJSWalk.induct regexTest opts
    (fun cs segs depth =>
      ∀ p ∈ scanJSWalk.items regexTest opts cs segs depth,
        ∃ rel, p = segs ++ rel ∧ rel ≠ [] ∧
          rel.getLast? = some "node_modules" ∧
          ∀ q ∈ rel.dropLast, q ≠ "node_modules")
    (fun e segs depth =>
      ∀ p ∈ scanJSWalk regexTest opts e segs depth,
        ∃ rel, p = segs ++ rel ∧ rel ≠ [] ∧
          rel.getLast? = some "node_modules" ∧
          ∀ q ∈ rel.dropLast, q ≠ "node_modules")
    ?_ ?_ ?_ ?_ ?_
  · intro e dirSegs depth hgd p hp
    cases e <;> simp [scanJSWalk, hgd] at hp
  · intro dirSegs depth hgd a p hp
    simp [scanJSWalk, hgd] at hp
  · intro dirSegs depth hgd cs h1 p hp
    apply h1 p
    simpa [scanJSWalk, hgd] using hp
  · intro segs depth p hp
    simp [scanJSWalk.items] at hp
  · intro name entry rest dirSegs depth ih2 ih1 p hp
    simp only [scanJSWalk.items] at hp
    rcases List.mem_append.mp hp with hp | hp
    · by_cases hskip :
          (jsStartsWith name "." || SKIP_FOLDERS.contains name) = true
      · rw [if_pos hskip] at hp
        simp at hp
      · rw [if_neg hskip] at hp
        by_cases hexc : excludeHit regexTest opts.excludePatterns
            (renderPath (dirSegs ++ [name])) = true
        · simp [hexc] at hp
        · rw [if_neg hexc] at hp
          by_cases hdir : (!(isDirEntry entry)) = true
          · simp [hdir] at hp
          · rw [if_neg hdir] at hp
            by_cases hnm : (name == "node_modules") = true
            · rw [if_pos hnm] at hp
              have hname : name = "node_modules" := by simpa using hnm
              exact ⟨[name], List.mem_singleton.mp hp, by simp,
                by simp [hname], by simp⟩
            · rw [if_neg hnm] at hp
              obtain ⟨rel', hrel, hne, hlast, hdrop⟩ := ih2 p hp
              refine ⟨name :: rel', ?_, by simp, ?_, ?_⟩
              · rw [hrel, List.append_assoc]
                rfl
              · cases rel' with
                | nil => exact absurd rfl hne
                | cons x xs => rw [List.getLast?_cons_cons]; exact hlast
              · intro q hq
                rw [List.dropLast_cons_of_ne_nil hne] at hq
                rcases List.mem_cons.mp hq with rfl | hq
                · intro hcon
                  rw [hcon] at hnm
                  simp at hnm
                · exact hdrop q hq
    · exact ih1 p hp

/-- Helper: the element at the position right after a prefix. -/
theorem snoc_pre_getElem (segs p : List String) (a : String)
    (h : (segs ++ [a]) <+: p) : p[segs.length]? = some a := by
  obtain ⟨t, ht⟩ := h
  rw [← ht, List.append_assoc, List.getElem?_append_right (Nat.le_refl _)]
  simp

/-- Helper: every path in one child's contribution to the walker's item
loop extends the child's own path. -/
theorem scanItems_head_pre (regexTest : String → String → Bool)
    (opts : ScanOptions) (name : String) (entry : FSEntry)
    (dirSegs : List String) (depth : Nat) (p : List String)
    (hp : p ∈
      (if (jsStartsWith name "." || SKIP_FOLDERS.contains name) = true then
        ([] : List (List String))
      else if excludeHit regexTest opts.excludePatterns
          (renderPath (dirSegs ++ [name])) = true then []
      else if (!(isDirEntry entry)) = true then []
      else if (name == "node_modules") = true then [dirSegs ++ [name]]
      else scanJSWalk regexTest opts entry (dirSegs ++ [name]) (depth + 1))) :
    (dirSegs ++ [name]) <+: p := by
  by_cases hskip : (jsStartsWith name "." || SKIP_FOLDERS.contains name) = true
  · rw [if_pos hskip] at hp
    simp at hp
  · rw [if_neg hskip] at hp
    by_cases hexc : excludeHit regexTest opts.excludePatterns
        (renderPath (dirSegs ++ [name])) = true
    · rw [if_pos hexc] at hp
      simp at hp
    · rw [if_neg hexc] at hp
      by_cases hdir : (!(isDirEntry entry)) = true
      · rw [if_pos hdir] at hp
        simp at hp
      · rw [if_neg hdir] at hp
        by_cases hnm : (name == "node_modules") = true
        · rw [if_pos hnm] at hp
          rw [List.mem_singleton.mp hp]
        · rw [if_neg hnm] at hp
          obtain ⟨rel, hrel, -, -, -⟩ :=
            scanWalk_shape regexTest opts entry (dirSegs ++ [name])
              (depth + 1) p hp
          exact ⟨rel, hrel.symm⟩

/-- Helper: the walker emits pairwise-distinct paths on any tree whose
directories list pairwise-distinct child names — each physical directory
is visited at most once, so each `node_modules` produces at most one
record. -/
theorem scanWalk_nodup (regexTest : String → String → Bool)
    (opts : ScanOptions) :
    ∀ (e : FSEntry) (segs : List String) (depth : Nat),
      nodupNamesFS e = true →
      (scanJSWalk regexTest opts e segs depth).Nodup := by
  refine scanJSWalk.induct regexTest opts
    (fun cs segs depth =>
      (cs.map (fun c => c.1)).Nodup → nodupNamesFS.go cs = true →
      (scanJSWalk.items regexTest opts cs segs depth).Nodup ∧
      ∀ p ∈ scanJSWalk.items regexTest opts cs segs depth,
        ∃ c ∈ cs, (segs ++ [c.1]) <+: p)
    (fun e segs depth =>
      nodupNamesFS e = true →
      (scanJSWalk regexTest opts e segs depth).Nodup)
    ?_ ?_ ?_ ?_ ?_
  · intro e dirSegs depth hgd _
    cases e <;> simp [scanJSWalk, hgd]
  · intro dirSegs depth hgd a _
    simp [scanJSWalk, hgd]
  · intro dirSegs depth hgd cs h1 hnd
    simp only [nodupNamesFS, Bool.and_eq_true, decide_eq_true_eq] at hnd
    have := (h1 hnd.1 hnd.2).1
    simpa [scanJSWalk, hgd] using this
  · intro segs depth _ _
    exact ⟨List.nodup_nil, by simp [scanJSWalk.items]⟩
  · intro name entry rest dirSegs depth ih2 ih1 hnd hgo
    rw [List.map_cons, List.nodup_cons] at hnd
    simp only [nodupNamesFS.go, Bool.and_eq_true] at hgo
    obtain ⟨hnotin, hndrest⟩ := hnd
    obtain ⟨hne, hgorest⟩ := hgo
    obtain ⟨hrestnd, hrestpre⟩ := ih1 hndrest hgorest
    simp only [scanJSWalk.items]
    constructor
    · refine List.Nodup.append ?_ hrestnd ?_
      · by_cases hskip :
            (jsStartsWith name "." || SKIP_FOLDERS.contains name) = true
        · rw [if_pos hskip]; exact List.nodup_nil
        · rw [if_neg hskip]
          by_cases hexc : excludeHit regexTest opts.excludePatterns
              (renderPath (dirSegs ++ [name])) = true
          · rw [if_pos hexc]; exact List.nodup_nil
          · rw [if_neg hexc]
            by_cases hdir : (!(isDirEntry entry)) = true
            · rw [if_pos hdir]; exact List.nodup_nil
            · rw [if_neg hdir]
              by_cases hnm : (name == "node_modules") = true
              · rw [if_pos hnm]; exact List.nodup_singleton _
              · rw [if_neg hnm]; exact ih2 hne
      · intro p hpB hpR
        have hpre1 := scanItems_head_pre regexTest opts name entry
          dirSegs depth p hpB
        obtain ⟨c, hc, hcpre⟩ := hrestpre p hpR
        have e1 := snoc_pre_getElem dirSegs p name hpre1
        have e2 := snoc_pre_getElem dirSegs p c.1 hcpre
        rw [e1] at e2
        have hceq : name = c.1 := Option.some.inj e2
        exact hnotin (hceq ▸ List.mem_map_of_mem (fun c => c.1) hc)
    · intro p hp
      rcases List.mem_append.mp hp with hp | hp
      · exact ⟨(name, entry), List.mem_cons_self _ _,
          scanItems_head_pre regexTest opts name entry dirSegs depth p hp⟩
      · obtain ⟨c, hc, hcpre⟩ := hrestpre p hp
        exact ⟨c, List.mem_cons_of_mem _ hc, hcpre⟩

/-- C5: on any real tree (pairwise-distinct child names per directory),
discovery's manual walk returns pairwise-distinct paths — one record per
physical directory at most; every recorded path extends the root by a
relative part whose only `node_modules` segment is the final one, so
traversal never descends into a match; and on the fixture with
`a/node_modules/node_modules` both the manual-walk scanner and the
native bulk-find scanner report exactly one record, for the outer
directory. -/
theorem discovery_unique_records :
    (∀ (regexTest : String → String → Bool) (opts : ScanOptions)
       (root : FSEntry), nodupNamesFS root = true →
       (scanJSWalk regexTest opts root opts.path 0).Nodup) ∧
    (∀ (regexTest : String → String → Bool) (opts : ScanOptions)
       (root : FSEntry) (p : List String),
       p ∈ scanJSWalk regexTest opts root opts.path 0 →
       ∃ rel, p = opts.path ++ rel ∧ rel ≠ [] ∧
         rel.getLast? = some "node_modules" ∧
         ∀ q ∈ rel.dropLast, q ≠ "node_modules") ∧
    scanNodeModulesCore noGlobRegex zeroFolderSize plainScanOptions
        nestedNodeModulesTree = [["", "root", "a", "node_modules"]] ∧
    scanNodeModulesFast noGlobRegex zeroFolderSize plainScanOptions
        nestedNodeModulesTree = [["", "root", "a", "node_modules"]] := by
  refine ⟨?_, ?_, ?_, ?_⟩
  · intro regexTest opts root h
    exact scanWalk_nodup regexTest opts root opts.path 0 h
  · intro regexTest opts root p hp
    exact scanWalk_shape regexTest opts root opts.path 0 p hp
  · unfold scanNodeModulesCore
    rw [show scanJSWalk noGlobRegex plainScanOptions nestedNodeModulesTree
        plainScanOptions.path 0 = [["", "root", "a", "node_modules"]] from rfl]
    simp [sortBySizeDesc, List.mergeSort]
  · unfold scanNodeModulesFast
    rw [show includeFilter noGlobRegex plainScanOptions
        (applyFastFilters noGlobRegex plainScanOptions
          (findNodeModulesNative nestedNodeModulesTree plainScanOptions.path
            plainScanOptions.depth)) = [["", "root", "a", "node_modules"]]
        from rfl]
    simp [sortBySizeDesc, List.mergeSort]

/-- C5 witness: the no-duplicates clause applied to the concrete nested
fixture. -/
theorem discovery_unique_records_witness :
    (scanJSWalk noGlobRegex plainScanOptions nestedNodeModulesTree
      plainScanOptions.path 0).Nodup :=
  discovery_unique_records.1 noGlobRegex plainScanOptions
    nestedNodeModulesTree rfl

end NodeJanitor
